import Mathlib

/-! Poll router of the stml0xx sensor HAL.

A shallow embedding of `src/stml0xx_hal/SensorsPollContext.cpp`.

* The device drivers (`HubSensors`, `AkmSensor`, `RearProxSensor`) are external: they are
  a parameter `Drivers σ` acting on an abstract device world `σ`.
* The slot enumeration, the sensor identifiers and `WAKE_MESSAGE` are declared in headers
  that are not part of the sources at hand; they are the fields of `Config`, together with
  the preprocessor switches.
* Every capability call on a device, every access of the router to the caller's buffer and
  every transfer on the wake pipe is appended to `Router.trace`.
* A call through an absent (null) handle is the result `Result.fault`.
-/

namespace SensorsPollContext

/-! ## Constants of the platform headers -/

/-- Value of `EINVAL` in `errno.h`. -/
def EINVAL : Int := 22

/-- Value of `EINTR` in `errno.h`. -/
def EINTR : Int := 4

/-- Value of `POLLIN` in `poll.h`. -/
def POLLIN : Nat := 1

/-- Value of `REPORTING_MODE_MASK` in `hardware/sensors.h`. -/
def REPORTING_MODE_MASK : Nat := 14

/-- Value of `SENSOR_FLAG_ONE_SHOT_MODE` in `hardware/sensors.h`. -/
def SENSOR_FLAG_ONE_SHOT_MODE : Nat := 4

/-- Two's complement reduction of an integer to the range of a 32 bit `int`. -/
def wrap32 (x : Int) : Int := (x + 2147483648) % 4294967296 - 2147483648

/-! ## Build configuration -/

/-- Preprocessor switches, the slot enumeration of `SensorsPollContext.h`, the wake byte
and the sensor identifiers of `Sensors.h`. -/
structure Config where
  ENABLE_MAGNETOMETER : Bool
  ENABLE_REARPROX : Bool
  ENABLE_GYROSCOPE : Bool
  ENABLE_ACCEL_SECONDARY : Bool
  ENABLE_CHOPCHOP : Bool
  ENABLE_LIFT : Bool
  ENABLE_PEDO : Bool
  sensor_hub : Nat
  akm : Nat
  rearprox : Nat
  numSensorDrivers : Nat
  wake : Nat
  numFds : Nat
  WAKE_MESSAGE : Int
  ID_A : Int
  ID_G : Int
  ID_UNCALIB_GYRO : Int
  ID_GAME_RV : Int
  ID_LA : Int
  ID_GRAVITY : Int
  ID_L : Int
  ID_DR : Int
  ID_P : Int
  ID_FU : Int
  ID_FD : Int
  ID_S : Int
  ID_CA : Int
  ID_A2 : Int
  ID_CC : Int
  ID_LF : Int
  ID_STEP_COUNTER : Int
  ID_STEP_DETECTOR : Int
  ID_GLANCE_GESTURE : Int
  ID_M : Int
  ID_UM : Int
  ID_OR : Int
  ID_RP : Int

/-- Case labels of `handleToDriver` that return `sensor_hub`, in source order. -/
def hubCases (cfg : Config) : List Int :=
  [cfg.ID_A]
    ++ (if cfg.ENABLE_GYROSCOPE then
          [cfg.ID_G, cfg.ID_UNCALIB_GYRO, cfg.ID_GAME_RV, cfg.ID_LA, cfg.ID_GRAVITY]
        else [])
    ++ [cfg.ID_L, cfg.ID_DR, cfg.ID_P, cfg.ID_FU, cfg.ID_FD, cfg.ID_S, cfg.ID_CA]
    ++ (if cfg.ENABLE_ACCEL_SECONDARY then [cfg.ID_A2] else [])
    ++ (if cfg.ENABLE_CHOPCHOP then [cfg.ID_CC] else [])
    ++ (if cfg.ENABLE_LIFT then [cfg.ID_LF] else [])
    ++ (if cfg.ENABLE_PEDO then [cfg.ID_STEP_COUNTER, cfg.ID_STEP_DETECTOR] else [])
    ++ [cfg.ID_GLANCE_GESTURE]

/-- Case labels of `handleToDriver` that return `akm`. -/
def akmCases (cfg : Config) : List Int :=
  if cfg.ENABLE_MAGNETOMETER then [cfg.ID_M, cfg.ID_UM, cfg.ID_OR] else []

/-- Case labels of `handleToDriver` that return `rearprox`. -/
def rearproxCases (cfg : Config) : List Int :=
  if cfg.ENABLE_REARPROX then [cfg.ID_RP] else []

/-- All case labels of the `switch` in `handleToDriver`; C++ requires them to be distinct. -/
def caseLabels (cfg : Config) : List Int :=
  hubCases cfg ++ akmCases cfg ++ rearproxCases cfg

/-- The `switch` of `SensorsPollContext::handleToDriver`: the slot of an identifier, or
`-EINVAL`. -/
def handleToDriver (cfg : Config) (handle : Int) : Int :=
  if handle ∈ hubCases cfg then (cfg.sensor_hub : Int)
  else if handle ∈ akmCases cfg then (cfg.akm : Int)
  else if handle ∈ rearproxCases cfg then (cfg.rearprox : Int)
  else -EINVAL

/-! ## Data -/

/-- The part of `sensors_event_t` the router looks at (`sensor`), and a payload. -/
structure sensors_event_t where
  sensor : Int
  payload : Int
deriving DecidableEq

/-- The part of a `sensor_t` entry of `sSensorList` the router looks at. -/
structure sensor_t where
  handle : Int
  flags : Nat
deriving DecidableEq

/-- What the router does to its collaborators, with the values that came back. -/
inductive Action where
  | setEnable (slot : Nat) (handle : Int) (enabled : Int) (err : Int)
  | setDelay (slot : Nat) (handle : Int) (ns : Int) (err : Int)
  | flush (slot : Nat) (handle : Int) (err : Int)
  | hasPendingEvents (slot : Nat) (pending : Bool)
  | readEvents (slot : Nat) (data : Int) (count : Int) (nb : Int)
      (written : List sensors_event_t)
  | setAccel (pos : Int) (ev : sensors_event_t)
  | load (pos : Int) (sensor : Int)
  | pipeWrite (byte : Int)
  | pipeRead (byte : Option Int)
deriving DecidableEq

/-- Outcome of one `readEvents` call: the returned `int`, the events the device stored at
the start of the buffer it was given, and the device world afterwards. -/
structure ReadResult (σ : Type) where
  nb : Int
  written : List sensors_event_t
  next : σ

/-- The capability set of the devices, indexed by slot, over a device world `σ`. -/
structure Drivers (σ : Type) where
  setEnable : Nat → Int → Int → σ → Int × σ
  setDelay : Nat → Int → Int → σ → Int × σ
  flush : Nat → Int → σ → Int × σ
  hasPendingEvents : Nat → σ → Bool
  readEvents : Nat → Int → σ → ReadResult σ
  setAccel : sensors_event_t → σ → σ

/-- The router object and what surrounds it: device world, handles (`true` = present),
`mIdToSensor`, the `revents` fields of `mPollFds`, the bytes in the wake pipe (oldest
first), the memory around the caller's buffer (in units of one event, position 0 being the
start of the buffer), and the trace. -/
structure Router (σ : Type) where
  dev : σ
  mSensors : Nat → Bool
  mIdToSensor : List (Int × sensor_t)
  revents : Nat → Nat
  pipe : List Int
  mem : Int → sensors_event_t
  trace : List Action

/-- How a call ends: it returns an `int`, it dereferences an absent handle, or (only
`pollEvents`) it is still waiting when the recorded wait outcomes are used up. -/
inductive Result where
  | ret (v : Int)
  | fault
  | blocked
deriving DecidableEq

/-- Control flow inside `pollEvents`: go on with a value, or leave the function. -/
inductive Flow (α : Type) where
  | next (a : α)
  | exit (r : Result)

/-- Outcome of one `poll(2)` call: return value, `errno`, and the `revents` it reports. -/
structure PollResult where
  ret : Int
  err : Int
  revents : Nat → Nat

/-- Append an action to the trace. -/
def Router.log {σ : Type} (st : Router σ) (a : Action) : Router σ :=
  { st with trace := st.trace ++ [a] }

/-! ## `mIdToSensor` -/

/-- Method `std::map::count`. -/
def mapCount (m : List (Int × sensor_t)) (handle : Int) : Nat :=
  if m.any (fun e => e.1 == handle) then 1 else 0

/-- Method `std::map::insert`: an existing key keeps its value. -/
def mapInsert (m : List (Int × sensor_t)) (e : Int × sensor_t) : List (Int × sensor_t) :=
  if mapCount m e.1 = 0 then m ++ [e] else m

/-- Lookup `mIdToSensor[handle]` of a key that is present. -/
def mapAt (m : List (Int × sensor_t)) (handle : Int) : Option sensor_t :=
  (m.find? (fun e => e.1 == handle)).map (fun e => e.2)

/-- The loop at the end of the constructor: every entry of `sSensorList` is inserted. -/
def buildIdToSensor (sSensorList : List sensor_t) : List (Int × sensor_t) :=
  sSensorList.foldl (fun m s => mapInsert m (s.handle, s)) []

/-! ## Construction -/

/-- The constructor `SensorsPollContext::SensorsPollContext`. `getInstance i` tells
whether the factory of slot `i` delivered an object. The object is static, so fields the
constructor does not touch are zero. -/
def construct {σ : Type} (cfg : Config) (getInstance : Nat → Bool)
    (sSensorList : List sensor_t) (dev : σ) (mem : Int → sensors_event_t) : Router σ :=
  let s0 : Nat → Bool := fun i => if i = cfg.sensor_hub then getInstance cfg.sensor_hub else false
  let s1 : Nat → Bool :=
    if cfg.ENABLE_MAGNETOMETER then fun i => if i = cfg.akm then getInstance cfg.akm else s0 i
    else s0
  let s2 : Nat → Bool :=
    if cfg.ENABLE_REARPROX then
      fun i => if i = cfg.rearprox then getInstance cfg.rearprox else s1 i
    else s1
  { dev := dev
    mSensors := s2
    mIdToSensor := buildIdToSensor sSensorList
    revents := fun _ => 0
    pipe := []
    mem := mem
    trace := [] }

/-! ## Control routing -/

/-- Call `mSensors[slot]->setEnable(handle, enabled)` on a present handle. -/
def callSetEnable {σ : Type} (D : Drivers σ) (slot : Nat) (handle enabled : Int)
    (st : Router σ) : Int × Router σ :=
  let r := D.setEnable slot handle enabled st.dev
  (r.1, { st with dev := r.2, trace := st.trace ++ [Action.setEnable slot handle enabled r.1] })

/-- Call `mSensors[slot]->setDelay(handle, ns)` on a present handle. -/
def callSetDelay {σ : Type} (D : Drivers σ) (slot : Nat) (handle ns : Int)
    (st : Router σ) : Int × Router σ :=
  let r := D.setDelay slot handle ns st.dev
  (r.1, { st with dev := r.2, trace := st.trace ++ [Action.setDelay slot handle ns r.1] })

/-- The call `write(mWritePipeFd, &wakeMessage, 1)`; the pipe is taken to have room. -/
def pipeWrite {σ : Type} (byte : Int) (st : Router σ) : Router σ :=
  { st with pipe := st.pipe ++ [byte], trace := st.trace ++ [Action.pipeWrite byte] }

/-- The end of `activate` in a build with the magnetometer, `r` being `err` and the router
at that point: the block `if (((handle == ID_M) || (handle == ID_OR)) && enabled && !err)`
that sends the wake byte, and `return err`. -/
def wakeAndReturn {σ : Type} (cfg : Config) (handle enabled : Int) (r : Int × Router σ) :
    Result × Router σ :=
  if (handle = cfg.ID_M ∨ handle = cfg.ID_OR) ∧ enabled ≠ 0 ∧ r.1 = 0 then
    (Result.ret r.1, pipeWrite cfg.WAKE_MESSAGE r.2)
  else (Result.ret r.1, r.2)

/-- Method `SensorsPollContext::activate`. -/
def activate {σ : Type} (cfg : Config) (D : Drivers σ) (handle enabled : Int)
    (st : Router σ) : Result × Router σ :=
  let drv := handleToDriver cfg handle
  if drv < 0 then (Result.ret (-EINVAL), st)
  else if mapCount st.mIdToSensor handle = 0 then (Result.ret (-EINVAL), st)
  else if st.mSensors drv.toNat = false then (Result.fault, st)
  else
    let r1 := callSetEnable D drv.toNat handle enabled st
    if cfg.ENABLE_MAGNETOMETER then
      if r1.1 = 0 ∧ handle = cfg.ID_OR then
        if r1.2.mSensors cfg.sensor_hub = false then (Result.fault, r1.2)
        else wakeAndReturn cfg handle enabled (callSetEnable D cfg.sensor_hub handle enabled r1.2)
      else wakeAndReturn cfg handle enabled r1
    else (Result.ret r1.1, r1.2)

/-- Method `SensorsPollContext::setDelay`. -/
def setDelay {σ : Type} (cfg : Config) (D : Drivers σ) (handle ns : Int)
    (st : Router σ) : Result × Router σ :=
  let drv := handleToDriver cfg handle
  if drv < 0 then (Result.ret (-EINVAL), st)
  else if mapCount st.mIdToSensor handle = 0 then (Result.ret (-EINVAL), st)
  else if st.mSensors drv.toNat = false then (Result.fault, st)
  else
    let r1 := callSetDelay D drv.toNat handle ns st
    if cfg.ENABLE_MAGNETOMETER then
      if r1.1 = 0 ∧ handle = cfg.ID_OR then
        if r1.2.mSensors cfg.sensor_hub = false then (Result.fault, r1.2)
        else
          let r2 := callSetDelay D cfg.sensor_hub handle ns r1.2
          (Result.ret r2.1, r2.2)
      else (Result.ret r1.1, r1.2)
    else (Result.ret r1.1, r1.2)

/-- Method `SensorsPollContext::batch`. -/
def batch {σ : Type} (cfg : Config) (D : Drivers σ) (handle : Int) (_flags : Int) (ns : Int)
    (_timeout : Int) (st : Router σ) : Result × Router σ :=
  setDelay cfg D handle ns st

/-- Method `SensorsPollContext::flush`. -/
def flush {σ : Type} (cfg : Config) (D : Drivers σ) (handle : Int)
    (st : Router σ) : Result × Router σ :=
  if mapCount st.mIdToSensor handle = 0 then (Result.ret (-EINVAL), st)
  else
    match mapAt st.mIdToSensor handle with
    | none => (Result.fault, st)
    | some s =>
      if s.flags &&& REPORTING_MODE_MASK = SENSOR_FLAG_ONE_SHOT_MODE then
        (Result.ret (-EINVAL), st)
      else if st.mSensors cfg.sensor_hub = false then (Result.fault, st)
      else
        let r := D.flush cfg.sensor_hub handle st.dev
        (Result.ret r.1,
          { st with dev := r.2, trace := st.trace ++ [Action.flush cfg.sensor_hub handle r.1] })

/-! ## Draining -/

/-- The buffer after a device stored `evs` from position `data` on. -/
def store (mem : Int → sensors_event_t) (data : Int) (evs : List sensors_event_t) :
    Int → sensors_event_t :=
  fun q => if data ≤ q ∧ q < data + evs.length then evs.getD (q - data).toNat (mem q) else mem q

/-- The inner loop `for (int j=0; j<nb; j++)` of `pollEvents`, started with `n` iterations
to go and `sensor_data` at position `p`. The `Bool` is `false` when `mSensors[akm]` is
absent at a `setAccel` call. -/
def scanAccel {σ : Type} (cfg : Config) (D : Drivers σ) :
    Nat → Int → Router σ → Bool × Router σ
  | 0, _, st => (true, st)
  | n + 1, p, st =>
    let st1 := st.log (Action.load p (st.mem p).sensor)
    if cfg.ID_A = (st1.mem p).sensor then
      if st1.mSensors cfg.akm = false then (false, st1)
      else
        scanAccel cfg D n (p - 1)
          { st1 with dev := D.setAccel (st1.mem p) st1.dev,
                     trace := st1.trace ++ [Action.setAccel p (st1.mem p)] }
    else scanAccel cfg D n (p - 1) st1

/-- The test `(mPollFds[i].revents & POLLIN) || (sensor->hasPendingEvents())`; `none` when
the second operand is evaluated on an absent handle. -/
def slotReady {σ : Type} (D : Drivers σ) (i : Nat) (st : Router σ) : Option Bool × Router σ :=
  if st.revents i &&& POLLIN ≠ 0 then (some true, st)
  else if st.mSensors i = false then (none, st)
  else (some (D.hasPendingEvents i st.dev),
        st.log (Action.hasPendingEvents i (D.hasPendingEvents i st.dev)))

/-- The body of the `if` in the loop of `pollEvents` for slot `i`: the read, the
bookkeeping and the correlation step. It yields the new `count`, `nbEvents` and `data`, or
leaves `pollEvents`. -/
def readSlot {σ : Type} (cfg : Config) (D : Drivers σ) (i : Nat) (count nbEvents data : Int)
    (st1 : Router σ) : Flow (Int × Int × Int) × Router σ :=
  if st1.mSensors i = false then (Flow.exit Result.fault, st1)
  else
    let r := D.readEvents i count st1.dev
    let st2 : Router σ :=
      { st1 with dev := r.next, mem := store st1.mem data r.written,
                 trace := st1.trace ++ [Action.readEvents i data count r.nb r.written] }
    if r.nb < 0 then (Flow.exit (Result.ret r.nb), st2)
    else
      let count1 := wrap32 (count - r.nb)
      let nbEvents1 := wrap32 (nbEvents + r.nb)
      let data1 := data + r.nb
      let st3 : Router σ :=
        { st2 with revents := fun j => if j = i then 0 else st2.revents j }
      if cfg.ENABLE_MAGNETOMETER = true ∧ 0 ≠ r.nb ∧ cfg.sensor_hub = i then
        match scanAccel cfg D r.nb.toNat (data1 - r.nb) st3 with
        | (false, st4) => (Flow.exit Result.fault, st4)
        | (true, st4) => (Flow.next (count1, nbEvents1, data1), st4)
      else (Flow.next (count1, nbEvents1, data1), st3)

/-- Body of the loop `for (int i=0 ; count && i<numSensorDrivers ; i++)` of `pollEvents`
for slot `i`. -/
def drainSlot {σ : Type} (cfg : Config) (D : Drivers σ) (i : Nat) (count nbEvents data : Int)
    (st : Router σ) : Flow (Int × Int × Int) × Router σ :=
  match slotReady D i st with
  | (none, st1) => (Flow.exit Result.fault, st1)
  | (some false, st1) => (Flow.next (count, nbEvents, data), st1)
  | (some true, st1) => readSlot cfg D i count nbEvents data st1

/-- The loop `for (int i=0 ; count && i<numSensorDrivers ; i++)` of `pollEvents`, with `k`
slots to go from slot `i` on; it yields `nbEvents`, or leaves `pollEvents`. -/
def drainLoop {σ : Type} (cfg : Config) (D : Drivers σ) :
    Nat → Nat → Int → Int → Int → Router σ → Flow Int × Router σ
  | 0, _, _, nbEvents, _, st => (Flow.next nbEvents, st)
  | k + 1, i, count, nbEvents, data, st =>
    if count = 0 then (Flow.next nbEvents, st)
    else
      match drainSlot cfg D i count nbEvents data st with
      | (Flow.exit r, st1) => (Flow.exit r, st1)
      | (Flow.next c, st1) => drainLoop cfg D k (i + 1) c.1 c.2.1 c.2.2 st1

/-- The block `if (mPollFds[wake].revents & POLLIN)` at the end of `pollEvents`: one
non-blocking `read` of one byte, then the result mask is cleared. -/
def wakeDrain {σ : Type} (cfg : Config) (st : Router σ) : Router σ :=
  if st.revents cfg.wake &&& POLLIN ≠ 0 then
    match st.pipe with
    | [] =>
      { st with revents := fun j => if j = cfg.wake then 0 else st.revents j,
                trace := st.trace ++ [Action.pipeRead none] }
    | b :: rest =>
      { st with pipe := rest,
                revents := fun j => if j = cfg.wake then 0 else st.revents j,
                trace := st.trace ++ [Action.pipeRead (some b)] }
  else st

/-- Number of entries handed to `poll`. -/
def nfds (cfg : Config) : Nat :=
  if cfg.ENABLE_MAGNETOMETER then cfg.numFds else cfg.numSensorDrivers

/-- The `revents` fields after a successful `poll` with outcome `p`. -/
def applyPoll {σ : Type} (cfg : Config) (p : PollResult) (st : Router σ) : Router σ :=
  { st with revents := fun i => if i < nfds cfg then p.revents i else st.revents i }

/-- The part of `pollEvents` after the wait loop: the drain loop, the wake block and
`return nbEvents`. -/
def drainAll {σ : Type} (cfg : Config) (D : Drivers σ) (data count : Int)
    (st : Router σ) : Result × Router σ :=
  match drainLoop cfg D cfg.numSensorDrivers 0 count 0 data st with
  | (Flow.exit r, st1) => (r, st1)
  | (Flow.next nbEvents, st1) =>
    (Result.ret nbEvents, if cfg.ENABLE_MAGNETOMETER then wakeDrain cfg st1 else st1)

/-- Method `SensorsPollContext::pollEvents(data, count)`. The list holds the outcomes of
the successive `poll` calls, the first one first. -/
def pollEvents {σ : Type} (cfg : Config) (D : Drivers σ) (data count : Int) :
    List PollResult → Router σ → Result × Router σ
  | [], st => (Result.blocked, st)
  | p :: rest, st =>
    if p.ret ≥ 0 then drainAll cfg D data count (applyPoll cfg p st)
    else if p.err = EINTR then pollEvents cfg D data count rest st
    else (Result.ret (-p.err), st)

/-! ## Reading traces -/

/-- The actions a call appended to the trace, from the router before and after it. -/
def newActions {σ : Type} (st st1 : Router σ) : List Action :=
  st1.trace.drop st.trace.length

/-- Number of events a `readEvents` action stored in the caller's buffer. -/
def Action.written : Action → Nat
  | Action.readEvents _ _ _ _ w => w.length
  | _ => 0

/-- Total number of events stored in the caller's buffer by the actions of a trace. -/
def eventsWritten (l : List Action) : Nat :=
  (l.map Action.written).sum

/-- A `readEvents` action that returned a negative value. -/
def Action.readFailed : Action → Bool
  | Action.readEvents _ _ _ nb _ => decide (nb < 0)
  | _ => false

/-- A `readEvents` action. -/
def Action.isRead : Action → Bool
  | Action.readEvents _ _ _ _ _ => true
  | _ => false

/-- Buffer positions the router itself inspected, in order. -/
def examined : List Action → List Int
  | [] => []
  | Action.load p _ :: l => p :: examined l
  | _ :: l => examined l

/-- The value `pollEvents` computes from the results of the reads alone, starting with
`nbEvents = acc`: the first negative result, else the 32 bit sum of the results. -/
def returnOfReads : List Action → Int → Int
  | [], acc => acc
  | Action.readEvents _ _ _ nb _ :: l, acc =>
    if nb < 0 then nb else returnOfReads l (wrap32 (acc + nb))
  | _ :: l, acc => returnOfReads l acc

/-- The outcome of the successful `poll` that ends the wait loop, after any number of
interrupted ones; `none` when the wait fails or the outcomes are used up. -/
def waitResult : List PollResult → Option PollResult
  | [] => none
  | p :: rest => if p.ret ≥ 0 then some p else if p.err = EINTR then waitResult rest else none

/-- An access of the router to the caller's buffer or a `setAccel` call: the actions of the
correlation step. -/
def Action.isScan : Action → Bool
  | Action.load _ _ => true
  | Action.setAccel _ _ => true
  | _ => false

/-- The actions of a correlation step that examines the given positions, holding the given
events, in order: each is loaded, and handed to `setAccel` when its subtype is `ID_A`. -/
def scanOf (cfg : Config) : List (Int × sensors_event_t) → List Action
  | [] => []
  | (p, ev) :: l =>
    (Action.load p ev.sensor
        :: (if cfg.ID_A = ev.sensor then [Action.setAccel p ev] else []))
      ++ scanOf cfg l

/-- Positions, with the events found there in memory `mem`, that `n` iterations of the
inner loop of `pollEvents` visit when `sensor_data` starts at `p`: the loop steps with
`sensor_data--`. -/
def scanned (mem : Int → sensors_event_t) : Nat → Int → List (Int × sensors_event_t)
  | 0, _ => []
  | n + 1, p => (p, mem p) :: scanned mem n (p - 1)

/-- The record of the `readEvents` call of slot `i` made in state `st`. -/
def readAction {σ : Type} (D : Drivers σ) (i : Nat) (count data : Int) (st : Router σ) :
    Action :=
  Action.readEvents i data count (D.readEvents i count st.dev).nb
    (D.readEvents i count st.dev).written

/-- The router right after a `readEvents` call of slot `i`: device world and buffer
updated, the call recorded. -/
def afterRead {σ : Type} (D : Drivers σ) (i : Nat) (count data : Int) (st : Router σ) :
    Router σ :=
  { st with dev := (D.readEvents i count st.dev).next,
            mem := store st.mem data (D.readEvents i count st.dev).written,
            trace := st.trace
              ++ [Action.readEvents i data count (D.readEvents i count st.dev).nb
                    (D.readEvents i count st.dev).written] }

/-- The router after a `readEvents` call of slot `i` and the reset of its result mask. -/
def afterReadCleared {σ : Type} (D : Drivers σ) (i : Nat) (count data : Int)
    (st : Router σ) : Router σ :=
  { afterRead D i count data st with
    revents := fun j => if j = i then 0 else st.revents j }

/-- No `readEvents` action of the trace returned a negative value. -/
def NoFail (l : List Action) : Prop :=
  ∀ a ∈ l, a.readFailed = false

instance (l : List Action) : Decidable (NoFail l) := by
  unfold NoFail
  infer_instance

/-- The factory of every slot of the build delivered an object (and so did that of the
magnetometer slot, in a build with the magnetometer). -/
def AllPresent {σ : Type} (cfg : Config) (st : Router σ) : Prop :=
  (∀ i, i < cfg.numSensorDrivers → st.mSensors i = true)
    ∧ (cfg.ENABLE_MAGNETOMETER = true → st.mSensors cfg.akm = true)

/-- The device contract of `readEvents(buffer, capacity)`, for a capacity that is not
negative: the result is a negative code or a count of at most `capacity`, and the device
stores as many events as it reports (none with a negative code). -/
def ReadContract {σ : Type} (D : Drivers σ) : Prop :=
  ∀ (slot : Nat) (count : Int) (s : σ), 0 ≤ count →
    ((D.readEvents slot count s).nb < 0 ∨ (D.readEvents slot count s).nb ≤ count) ∧
      ((D.readEvents slot count s).written.length : Int)
        = ((D.readEvents slot count s).nb.toNat : Int)

/-! ## A sample build and scripted devices -/

/-- A build with the magnetometer: hub in slot 0, magnetometer in slot 1, wake entry 2. -/
def akmConfig : Config where
  ENABLE_MAGNETOMETER := true
  ENABLE_REARPROX := false
  ENABLE_GYROSCOPE := true
  ENABLE_ACCEL_SECONDARY := false
  ENABLE_CHOPCHOP := false
  ENABLE_LIFT := false
  ENABLE_PEDO := false
  sensor_hub := 0
  akm := 1
  rearprox := 2
  numSensorDrivers := 2
  wake := 2
  numFds := 3
  WAKE_MESSAGE := 87
  ID_A := 1
  ID_G := 2
  ID_UNCALIB_GYRO := 3
  ID_GAME_RV := 4
  ID_LA := 5
  ID_GRAVITY := 6
  ID_L := 7
  ID_DR := 8
  ID_P := 9
  ID_FU := 10
  ID_FD := 11
  ID_S := 12
  ID_CA := 13
  ID_A2 := 14
  ID_CC := 15
  ID_LF := 16
  ID_STEP_COUNTER := 17
  ID_STEP_DETECTOR := 18
  ID_GLANCE_GESTURE := 19
  ID_M := 20
  ID_UM := 21
  ID_OR := 22
  ID_RP := 23

/-- A scripted device world: the events queued in each slot, the code each slot answers to
a control call, the code each slot answers to a read when negative, and the accelerometer
samples the magnetometer received. -/
structure Sim where
  queue : Nat → List sensors_event_t
  ctl : Nat → Int
  readErr : Nat → Int
  accel : List sensors_event_t

/-- Scripted devices over `Sim`. -/
def simDrivers : Drivers Sim where
  setEnable := fun slot _ _ w => (w.ctl slot, w)
  setDelay := fun slot _ _ w => (w.ctl slot, w)
  flush := fun slot _ w => (w.ctl slot, w)
  hasPendingEvents := fun _ _ => false
  readEvents := fun slot count w =>
    if w.readErr slot < 0 then { nb := w.readErr slot, written := [], next := w }
    else
      { nb := (((w.queue slot).take count.toNat).length : Int)
        written := (w.queue slot).take count.toNat
        next := { w with queue := fun s =>
                    if s = slot then (w.queue slot).drop count.toNat else w.queue s } }
  setAccel := fun ev w => { w with accel := w.accel ++ [ev] }

/-- A device world with the given hub queue, every control call succeeding. -/
def simWorld (hubQueue : List sensors_event_t) : Sim where
  queue := fun s => if s = 0 then hubQueue else []
  ctl := fun _ => 0
  readErr := fun _ => 0
  accel := []

/-- The static sensor list of the examples: accelerometer, light, raw magnetic field,
orientation, and a one-shot gesture. -/
def sampleSensorList : List sensor_t :=
  [⟨1, 0⟩, ⟨7, 2⟩, ⟨20, 0⟩, ⟨22, 0⟩, ⟨19, 4⟩]

/-- Memory that holds no sensor event anywhere. -/
def blankMem : Int → sensors_event_t :=
  fun _ => ⟨0, 0⟩

/-- One successful `poll` that reports the given `revents`. -/
def pollOk (revents : Nat → Nat) : PollResult :=
  { ret := 1, err := 0, revents := revents }

/-- One `poll` interrupted by a signal. -/
def pollIntr : PollResult :=
  { ret := -1, err := EINTR, revents := fun _ => 0 }

/-- The router of the sample build after construction, every factory succeeding, with the
given events queued in the hub. -/
def sampleRouter (hubQueue : List sensors_event_t) : Router Sim :=
  construct akmConfig (fun _ => true) sampleSensorList (simWorld hubQueue) blankMem

/-- Outcome `revents` of a wait in which exactly the entry `i` is readable. -/
def onlyReady (i : Nat) : Nat → Nat :=
  fun j => if j = i then POLLIN else 0

/-- The sample router with two events queued in the hub and a magnetometer whose
`readEvents` fails with `-5`. -/
def failingRouter : Router Sim :=
  construct akmConfig (fun _ => true) sampleSensorList
    { simWorld [⟨7, 1⟩, ⟨7, 2⟩] with readErr := fun s => if s = 1 then -5 else 0 } blankMem

/-- The sample router with one byte `b` waiting in the wake pipe. -/
def signalledRouter (b : Int) : Router Sim :=
  { sampleRouter [] with pipe := [b] }

/-- The sample router with a magnetometer that answers control calls with `-5`. -/
def refusingRouter : Router Sim :=
  construct akmConfig (fun _ => true) sampleSensorList
    { simWorld [] with ctl := fun s => if s = 1 then -5 else 0 } blankMem

/-- The sample router when the factory of slot `absent` failed. -/
def degradedRouter (absent : Nat) : Router Sim :=
  construct akmConfig (fun i => decide (i ≠ absent)) sampleSensorList (simWorld []) blankMem

/-! ## Lemmas on `mIdToSensor` and on traces -/

theorem mapCount_eq_zero {m : List (Int × sensor_t)} {handle : Int}
    (h : ∀ e ∈ m, e.1 ≠ handle) : mapCount m handle = 0 := by
  unfold mapCount
  have hany : (m.any fun e => e.1 == handle) = false := by
    rw [List.any_eq_false]
    intro e he
    simpa using h e he
  simp [hany]

theorem mapCount_ne_zero_of_mapAt {m : List (Int × sensor_t)} {handle : Int} {s : sensor_t}
    (h : mapAt m handle = some s) : mapCount m handle ≠ 0 := by
  unfold mapAt at h
  unfold mapCount
  cases hf : m.find? (fun e => e.1 == handle) with
  | none => simp [hf] at h
  | some e =>
    have hmem := List.mem_of_find?_eq_some hf
    have hp := List.find?_some hf
    have hany : (m.any fun e => e.1 == handle) = true :=
      List.any_eq_true.mpr ⟨e, hmem, hp⟩
    simp [hany]

theorem newActions_append {σ : Type} (st st1 : Router σ) (l : List Action)
    (h : st1.trace = st.trace ++ l) : newActions st st1 = l := by
  simp [newActions, h]

theorem newActions_self {σ : Type} (st : Router σ) : newActions st st = [] := by
  simp [newActions]

/-! ## Lemmas on the drain loop -/

theorem scanAccel_succ_skip {σ : Type} (cfg : Config) (D : Drivers σ) (n : Nat) (p : Int)
    (st : Router σ) (hA : cfg.ID_A ≠ (st.mem p).sensor) :
    scanAccel cfg D (n + 1) p st
      = scanAccel cfg D n (p - 1)
          { st with trace := st.trace ++ [Action.load p (st.mem p).sensor] } := by
  simp [scanAccel, Router.log, hA]

theorem scanAccel_succ_fault {σ : Type} (cfg : Config) (D : Drivers σ) (n : Nat) (p : Int)
    (st : Router σ) (hA : cfg.ID_A = (st.mem p).sensor) (hk : st.mSensors cfg.akm = false) :
    scanAccel cfg D (n + 1) p st
      = (false, { st with trace := st.trace ++ [Action.load p (st.mem p).sensor] }) := by
  simp only [scanAccel, Router.log]
  rw [if_pos hA, if_pos hk]

theorem scanAccel_succ_push {σ : Type} (cfg : Config) (D : Drivers σ) (n : Nat) (p : Int)
    (st : Router σ) (hA : cfg.ID_A = (st.mem p).sensor) (hk : st.mSensors cfg.akm = true) :
    scanAccel cfg D (n + 1) p st
      = scanAccel cfg D n (p - 1)
          { st with dev := D.setAccel (st.mem p) st.dev,
                    trace := st.trace
                      ++ [Action.load p (st.mem p).sensor, Action.setAccel p (st.mem p)] } := by
  have hk2 : ¬ (st.mSensors cfg.akm = false) := by simp [hk]
  simp only [scanAccel, Router.log]
  rw [if_pos hA, if_neg hk2]
  simp

theorem scanAccel_spec {σ : Type} (cfg : Config) (D : Drivers σ) (n : Nat) :
    ∀ (p : Int) (st : Router σ),
      ∃ N, (scanAccel cfg D n p st).2.trace = st.trace ++ N
        ∧ (scanAccel cfg D n p st).2.mSensors = st.mSensors
        ∧ (scanAccel cfg D n p st).2.mem = st.mem
        ∧ N.filter Action.isRead = []
        ∧ ((scanAccel cfg D n p st).1 = false → st.mSensors cfg.akm = false)
        ∧ ((scanAccel cfg D n p st).1 = true → N = scanOf cfg (scanned st.mem n p)) := by
  induction n with
  | zero =>
    intro p st
    exact ⟨[], by simp [scanAccel, scanned, scanOf]⟩
  | succ n ih =>
    intro p st
    by_cases hA : cfg.ID_A = (st.mem p).sensor
    · cases hk : st.mSensors cfg.akm with
      | false =>
        rw [scanAccel_succ_fault cfg D n p st hA hk]
        exact ⟨[Action.load p (st.mem p).sensor], rfl, rfl, rfl, rfl, fun _ => rfl,
          fun h => by simp at h⟩
      | true =>
        rw [scanAccel_succ_push cfg D n p st hA hk]
        obtain ⟨N, h1, h2, h3, h4, h5, h6⟩ := ih (p - 1)
          { st with dev := D.setAccel (st.mem p) st.dev,
                    trace := st.trace
                      ++ [Action.load p (st.mem p).sensor, Action.setAccel p (st.mem p)] }
        refine ⟨Action.load p (st.mem p).sensor :: Action.setAccel p (st.mem p) :: N,
          ?_, h2, h3, ?_, ?_, ?_⟩
        · rw [h1]; simp
        · simp [List.filter_cons, Action.isRead, h4]
        · intro hf
          have := h5 hf
          simp [hk] at this
        · intro ht
          rw [h6 ht]
          simp [scanned, scanOf, hA]
    · rw [scanAccel_succ_skip cfg D n p st hA]
      obtain ⟨N, h1, h2, h3, h4, h5, h6⟩ := ih (p - 1)
        { st with trace := st.trace ++ [Action.load p (st.mem p).sensor] }
      refine ⟨Action.load p (st.mem p).sensor :: N, ?_, h2, h3, ?_, h5, ?_⟩
      · rw [h1]; simp
      · simp [List.filter_cons, Action.isRead, h4]
      · intro ht
        rw [h6 ht]
        simp [scanned, scanOf, hA]

theorem readSlot_absent {σ : Type} (cfg : Config) (D : Drivers σ) (i : Nat)
    (count nbEvents data : Int) (st : Router σ) (hp : st.mSensors i = false) :
    readSlot cfg D i count nbEvents data st = (Flow.exit Result.fault, st) := by
  unfold readSlot
  rw [if_pos hp]

theorem readSlot_failed {σ : Type} (cfg : Config) (D : Drivers σ) (i : Nat)
    (count nbEvents data : Int) (st : Router σ) (hp : st.mSensors i = true)
    (hneg : (D.readEvents i count st.dev).nb < 0) :
    readSlot cfg D i count nbEvents data st
      = (Flow.exit (Result.ret (D.readEvents i count st.dev).nb),
          afterRead D i count data st) := by
  have hp2 : ¬ (st.mSensors i = false) := by simp [hp]
  unfold readSlot
  rw [if_neg hp2]
  simp only []
  rw [if_pos hneg]
  rfl

theorem readSlot_plain {σ : Type} (cfg : Config) (D : Drivers σ) (i : Nat)
    (count nbEvents data : Int) (st : Router σ) (hp : st.mSensors i = true)
    (hnn : 0 ≤ (D.readEvents i count st.dev).nb)
    (hs : ¬ (cfg.ENABLE_MAGNETOMETER = true ∧ 0 ≠ (D.readEvents i count st.dev).nb
              ∧ cfg.sensor_hub = i)) :
    readSlot cfg D i count nbEvents data st
      = (Flow.next (wrap32 (count - (D.readEvents i count st.dev).nb),
            wrap32 (nbEvents + (D.readEvents i count st.dev).nb),
            data + (D.readEvents i count st.dev).nb),
          afterReadCleared D i count data st) := by
  have hp2 : ¬ (st.mSensors i = false) := by simp [hp]
  unfold readSlot
  rw [if_neg hp2]
  simp only []
  rw [if_neg (not_lt.mpr hnn), if_neg hs]
  rfl

theorem readSlot_scan {σ : Type} (cfg : Config) (D : Drivers σ) (i : Nat)
    (count nbEvents data : Int) (st : Router σ) (hp : st.mSensors i = true)
    (hnn : 0 ≤ (D.readEvents i count st.dev).nb)
    (hs : cfg.ENABLE_MAGNETOMETER = true ∧ 0 ≠ (D.readEvents i count st.dev).nb
              ∧ cfg.sensor_hub = i) :
    readSlot cfg D i count nbEvents data st
      = (if (scanAccel cfg D (D.readEvents i count st.dev).nb.toNat data
              (afterReadCleared D i count data st)).1 = true
          then Flow.next (wrap32 (count - (D.readEvents i count st.dev).nb),
                wrap32 (nbEvents + (D.readEvents i count st.dev).nb),
                data + (D.readEvents i count st.dev).nb)
          else Flow.exit Result.fault,
          (scanAccel cfg D (D.readEvents i count st.dev).nb.toNat data
              (afterReadCleared D i count data st)).2) := by
  have hp2 : ¬ (st.mSensors i = false) := by simp [hp]
  unfold readSlot
  rw [if_neg hp2]
  simp only []
  rw [if_neg (not_lt.mpr hnn), if_pos hs]
  simp only [add_sub_cancel_right]
  show (match scanAccel cfg D (D.readEvents i count st.dev).nb.toNat data
          (afterReadCleared D i count data st) with
        | (false, st4) => (Flow.exit Result.fault, st4)
        | (true, st4) => (Flow.next _, st4)) = _
  rcases scanAccel cfg D (D.readEvents i count st.dev).nb.toNat data
      (afterReadCleared D i count data st) with ⟨b, st4⟩
  cases b <;> simp

theorem filter_isRead_scanOf (cfg : Config) (l : List (Int × sensors_event_t)) :
    (scanOf cfg l).filter Action.isRead = [] := by
  induction l with
  | nil => simp [scanOf]
  | cons x l ih =>
    obtain ⟨p, ev⟩ := x
    by_cases h : cfg.ID_A = ev.sensor <;> simp [scanOf, h, Action.isRead, ih]

theorem filter_isScan_scanOf (cfg : Config) (l : List (Int × sensors_event_t)) :
    (scanOf cfg l).filter Action.isScan = scanOf cfg l := by
  induction l with
  | nil => simp [scanOf]
  | cons x l ih =>
    obtain ⟨p, ev⟩ := x
    by_cases h : cfg.ID_A = ev.sensor <;> simp [scanOf, h, Action.isScan, ih]

theorem readSlot_spec {σ : Type} (cfg : Config) (D : Drivers σ) (i : Nat)
    (count nbEvents data : Int) (st : Router σ) :
    ∃ N, (readSlot cfg D i count nbEvents data st).2.trace = st.trace ++ N
      ∧ (readSlot cfg D i count nbEvents data st).2.mSensors = st.mSensors
      ∧ (((readSlot cfg D i count nbEvents data st).1 = Flow.exit Result.fault
            ∧ (st.mSensors i = false
                ∨ (cfg.ENABLE_MAGNETOMETER = true ∧ st.mSensors cfg.akm = false))
            ∧ (N.filter Action.isRead = []
                ∨ (N.filter Action.isRead = [readAction D i count data st]
                    ∧ 0 ≤ (D.readEvents i count st.dev).nb)))
        ∨ ((readSlot cfg D i count nbEvents data st).1
              = Flow.exit (Result.ret (D.readEvents i count st.dev).nb)
            ∧ (D.readEvents i count st.dev).nb < 0
            ∧ N = [readAction D i count data st])
        ∨ ((readSlot cfg D i count nbEvents data st).1
              = Flow.next (wrap32 (count - (D.readEvents i count st.dev).nb),
                  wrap32 (nbEvents + (D.readEvents i count st.dev).nb),
                  data + (D.readEvents i count st.dev).nb)
            ∧ 0 ≤ (D.readEvents i count st.dev).nb
            ∧ N.filter Action.isRead = [readAction D i count data st]
            ∧ N.filter Action.isScan
                = (if cfg.ENABLE_MAGNETOMETER = true ∧ 0 ≠ (D.readEvents i count st.dev).nb
                      ∧ cfg.sensor_hub = i
                    then scanOf cfg
                      (scanned (store st.mem data (D.readEvents i count st.dev).written)
                        (D.readEvents i count st.dev).nb.toNat data)
                    else []))) := by
  cases hpres : st.mSensors i with
  | false =>
    rw [readSlot_absent cfg D i count nbEvents data st hpres]
    exact ⟨[], by simp, rfl, Or.inl ⟨rfl, Or.inl rfl, Or.inl rfl⟩⟩
  | true =>
    by_cases hneg : (D.readEvents i count st.dev).nb < 0
    · rw [readSlot_failed cfg D i count nbEvents data st hpres hneg]
      exact ⟨_, rfl, rfl, Or.inr (Or.inl ⟨rfl, hneg, rfl⟩)⟩
    · have hnn : 0 ≤ (D.readEvents i count st.dev).nb := not_lt.mp hneg
      by_cases hscan : cfg.ENABLE_MAGNETOMETER = true ∧ 0 ≠ (D.readEvents i count st.dev).nb
          ∧ cfg.sensor_hub = i
      · rw [readSlot_scan cfg D i count nbEvents data st hpres hnn hscan]
        obtain ⟨N, h1, h2, h3, h4, h5, h6⟩ :=
          scanAccel_spec cfg D (D.readEvents i count st.dev).nb.toNat data
            (afterReadCleared D i count data st)
        refine ⟨readAction D i count data st :: N, ?_, ?_, ?_⟩
        · show (scanAccel cfg D _ data (afterReadCleared D i count data st)).2.trace = _
          rw [h1]
          simp [afterReadCleared, afterRead, readAction]
        · show (scanAccel cfg D _ data (afterReadCleared D i count data st)).2.mSensors = _
          rw [h2]
          rfl
        · cases hb : (scanAccel cfg D (D.readEvents i count st.dev).nb.toNat data
              (afterReadCleared D i count data st)).1 with
          | false =>
            refine Or.inl ⟨by simp, Or.inr ⟨hscan.1, h5 hb⟩, Or.inr ⟨?_, hnn⟩⟩
            simp [List.filter_cons, readAction, Action.isRead, h4]
          | true =>
            refine Or.inr (Or.inr ⟨by simp, hnn, ?_, ?_⟩)
            · simp [List.filter_cons, readAction, Action.isRead, h4]
            · rw [if_pos hscan, h6 hb]
              simp [List.filter_cons, readAction, Action.isScan, filter_isScan_scanOf,
                afterReadCleared, afterRead]
      · rw [readSlot_plain cfg D i count nbEvents data st hpres hnn hscan]
        refine ⟨[readAction D i count data st], ?_, rfl, Or.inr (Or.inr ⟨rfl, hnn, ?_, ?_⟩)⟩
        · simp [afterReadCleared, afterRead, readAction]
        · simp [readAction, Action.isRead]
        · rw [if_neg hscan]
          simp [readAction, Action.isScan]

theorem drainSlot_ready {σ : Type} (cfg : Config) (D : Drivers σ) (i : Nat)
    (count nbEvents data : Int) (st : Router σ) (hr : st.revents i &&& POLLIN ≠ 0) :
    drainSlot cfg D i count nbEvents data st = readSlot cfg D i count nbEvents data st := by
  unfold drainSlot slotReady
  rw [if_pos hr]

theorem drainSlot_absent {σ : Type} (cfg : Config) (D : Drivers σ) (i : Nat)
    (count nbEvents data : Int) (st : Router σ) (hr : ¬ (st.revents i &&& POLLIN ≠ 0))
    (hp : st.mSensors i = false) :
    drainSlot cfg D i count nbEvents data st = (Flow.exit Result.fault, st) := by
  unfold drainSlot slotReady
  rw [if_neg hr, if_pos hp]

theorem drainSlot_idle {σ : Type} (cfg : Config) (D : Drivers σ) (i : Nat)
    (count nbEvents data : Int) (st : Router σ) (hr : ¬ (st.revents i &&& POLLIN ≠ 0))
    (hp : st.mSensors i = true) (hpend : D.hasPendingEvents i st.dev = false) :
    drainSlot cfg D i count nbEvents data st
      = (Flow.next (count, nbEvents, data),
          { st with trace := st.trace ++ [Action.hasPendingEvents i false] }) := by
  have hp2 : ¬ (st.mSensors i = false) := by simp [hp]
  unfold drainSlot slotReady
  rw [if_neg hr, if_neg hp2, hpend]
  rfl

theorem drainSlot_pending {σ : Type} (cfg : Config) (D : Drivers σ) (i : Nat)
    (count nbEvents data : Int) (st : Router σ) (hr : ¬ (st.revents i &&& POLLIN ≠ 0))
    (hp : st.mSensors i = true) (hpend : D.hasPendingEvents i st.dev = true) :
    drainSlot cfg D i count nbEvents data st
      = readSlot cfg D i count nbEvents data
          { st with trace := st.trace ++ [Action.hasPendingEvents i true] } := by
  have hp2 : ¬ (st.mSensors i = false) := by simp [hp]
  unfold drainSlot slotReady
  rw [if_neg hr, if_neg hp2, hpend]
  rfl

/-- What one pass of the drain loop does, by cases: the slot is skipped; an absent handle
is dereferenced; the read fails; the read succeeds. -/
theorem drainSlot_spec {σ : Type} (cfg : Config) (D : Drivers σ) (i : Nat)
    (count nbEvents data : Int) (st : Router σ) :
    ∃ N, (drainSlot cfg D i count nbEvents data st).2.trace = st.trace ++ N
      ∧ (drainSlot cfg D i count nbEvents data st).2.mSensors = st.mSensors
      ∧ (((drainSlot cfg D i count nbEvents data st).1 = Flow.next (count, nbEvents, data)
            ∧ N.filter Action.isRead = [] ∧ N.filter Action.isScan = [])
        ∨ ((drainSlot cfg D i count nbEvents data st).1 = Flow.exit Result.fault
            ∧ (st.mSensors i = false
                ∨ (cfg.ENABLE_MAGNETOMETER = true ∧ st.mSensors cfg.akm = false))
            ∧ (N.filter Action.isRead = []
                ∨ (N.filter Action.isRead = [readAction D i count data st]
                    ∧ 0 ≤ (D.readEvents i count st.dev).nb)))
        ∨ ((drainSlot cfg D i count nbEvents data st).1
              = Flow.exit (Result.ret (D.readEvents i count st.dev).nb)
            ∧ (D.readEvents i count st.dev).nb < 0
            ∧ N.filter Action.isRead = [readAction D i count data st]
            ∧ N.filter Action.isScan = [])
        ∨ ((drainSlot cfg D i count nbEvents data st).1
              = Flow.next (wrap32 (count - (D.readEvents i count st.dev).nb),
                  wrap32 (nbEvents + (D.readEvents i count st.dev).nb),
                  data + (D.readEvents i count st.dev).nb)
            ∧ 0 ≤ (D.readEvents i count st.dev).nb
            ∧ N.filter Action.isRead = [readAction D i count data st]
            ∧ N.filter Action.isScan
                = (if cfg.ENABLE_MAGNETOMETER = true ∧ 0 ≠ (D.readEvents i count st.dev).nb
                      ∧ cfg.sensor_hub = i
                    then scanOf cfg
                      (scanned (store st.mem data (D.readEvents i count st.dev).written)
                        (D.readEvents i count st.dev).nb.toNat data)
                    else []))) := by
  by_cases hr : st.revents i &&& POLLIN ≠ 0
  · rw [drainSlot_ready cfg D i count nbEvents data st hr]
    obtain ⟨N, h1, h2, h3⟩ := readSlot_spec cfg D i count nbEvents data st
    refine ⟨N, h1, h2, ?_⟩
    rcases h3 with h3 | h3 | h3
    · exact Or.inr (Or.inl h3)
    · exact Or.inr (Or.inr (Or.inl ⟨h3.1, h3.2.1,
        by rw [h3.2.2]; simp [readAction, Action.isRead],
        by rw [h3.2.2]; simp [readAction, Action.isScan]⟩))
    · exact Or.inr (Or.inr (Or.inr h3))
  · cases hp : st.mSensors i with
    | false =>
      rw [drainSlot_absent cfg D i count nbEvents data st hr hp]
      exact ⟨[], by simp, rfl, Or.inr (Or.inl ⟨rfl, Or.inl rfl, Or.inl rfl⟩)⟩
    | true =>
      cases hpend : D.hasPendingEvents i st.dev with
      | false =>
        rw [drainSlot_idle cfg D i count nbEvents data st hr hp hpend]
        exact ⟨[Action.hasPendingEvents i false], rfl, rfl,
          Or.inl ⟨rfl, by simp [Action.isRead], by simp [Action.isScan]⟩⟩
      | true =>
        rw [drainSlot_pending cfg D i count nbEvents data st hr hp hpend]
        obtain ⟨N, h1, h2, h3⟩ := readSlot_spec cfg D i count nbEvents data
          { st with trace := st.trace ++ [Action.hasPendingEvents i true] }
        refine ⟨Action.hasPendingEvents i true :: N, ?_, h2, ?_⟩
        · rw [h1]; simp
        · have hf : (Action.hasPendingEvents i true :: N).filter Action.isRead
              = N.filter Action.isRead := by simp [List.filter_cons, Action.isRead]
          have hg : (Action.hasPendingEvents i true :: N).filter Action.isScan
              = N.filter Action.isScan := by simp [List.filter_cons, Action.isScan]
          rw [hf, hg]
          rcases h3 with h3 | h3 | h3
          · refine Or.inr (Or.inl ⟨h3.1, h3.2.1.imp (fun h => ?_) id, h3.2.2⟩)
            have h2 : st.mSensors i = false := h
            rw [hp] at h2
            exact h2
          · exact Or.inr (Or.inr (Or.inl ⟨h3.1, h3.2.1,
              by rw [h3.2.2]; simp [readAction, Action.isRead],
              by rw [h3.2.2]; simp [readAction, Action.isScan]⟩))
          · exact Or.inr (Or.inr (Or.inr h3))

theorem readFailed_eq_false_of_not_isRead {a : Action} (h : a.isRead = false) :
    a.readFailed = false := by
  cases a <;> simp_all [Action.isRead, Action.readFailed]

theorem noFail_of_filter {l : List Action} (h : NoFail (l.filter Action.isRead)) :
    NoFail l := by
  intro a ha
  cases hr : a.isRead with
  | false => exact readFailed_eq_false_of_not_isRead hr
  | true => exact h a (List.mem_filter.mpr ⟨ha, hr⟩)

theorem noFail_nil : NoFail [] := by
  intro a ha
  simp at ha

theorem noFail_append {l1 l2 : List Action} (h1 : NoFail l1) (h2 : NoFail l2) :
    NoFail (l1 ++ l2) := by
  intro a ha
  rcases List.mem_append.mp ha with h | h
  · exact h1 a h
  · exact h2 a h

theorem returnOfReads_filter (l : List Action) :
    ∀ acc, returnOfReads (l.filter Action.isRead) acc = returnOfReads l acc := by
  induction l with
  | nil => intro acc; rfl
  | cons a l ih =>
    intro acc
    cases a <;> simp [List.filter_cons, Action.isRead, returnOfReads, ih]

theorem returnOfReads_append {l1 : List Action} (h : NoFail l1) (l2 : List Action) :
    ∀ acc, returnOfReads (l1 ++ l2) acc = returnOfReads l2 (returnOfReads l1 acc) := by
  induction l1 with
  | nil => intro acc; rfl
  | cons a l ih =>
    intro acc
    have hl : NoFail l := fun b hb => h b (List.mem_cons_of_mem _ hb)
    have ha := h a (List.mem_cons_self _ _)
    cases a with
    | readEvents s p c nb w =>
      have hnb : ¬ (nb < 0) := by simpa [Action.readFailed] using ha
      simp [returnOfReads, hnb, ih hl]
    | _ => simp [returnOfReads, ih hl]

theorem eventsWritten_append (l1 l2 : List Action) :
    eventsWritten (l1 ++ l2) = eventsWritten l1 + eventsWritten l2 := by
  simp [eventsWritten]

theorem eventsWritten_filter (l : List Action) :
    eventsWritten (l.filter Action.isRead) = eventsWritten l := by
  induction l with
  | nil => rfl
  | cons a l ih =>
    cases a <;> simp_all [List.filter_cons, Action.isRead, eventsWritten, Action.written]

theorem drainLoop_succ_stop {σ : Type} (cfg : Config) (D : Drivers σ) (k i : Nat)
    (nbEvents data : Int) (st : Router σ) :
    drainLoop cfg D (k + 1) i 0 nbEvents data st = (Flow.next nbEvents, st) := by
  simp [drainLoop]

theorem drainLoop_succ_exit {σ : Type} (cfg : Config) (D : Drivers σ) (k i : Nat)
    (count nbEvents data : Int) (st : Router σ) (hc : count ≠ 0) (r : Result)
    (h : (drainSlot cfg D i count nbEvents data st).1 = Flow.exit r) :
    drainLoop cfg D (k + 1) i count nbEvents data st
      = (Flow.exit r, (drainSlot cfg D i count nbEvents data st).2) := by
  rw [drainLoop, if_neg hc]
  rcases hds : drainSlot cfg D i count nbEvents data st with ⟨f, st1⟩
  rw [hds] at h
  simp only at h
  subst h
  rfl

theorem drainLoop_succ_next {σ : Type} (cfg : Config) (D : Drivers σ) (k i : Nat)
    (count nbEvents data : Int) (st : Router σ) (hc : count ≠ 0) (c : Int × Int × Int)
    (h : (drainSlot cfg D i count nbEvents data st).1 = Flow.next c) :
    drainLoop cfg D (k + 1) i count nbEvents data st
      = drainLoop cfg D k (i + 1) c.1 c.2.1 c.2.2
          (drainSlot cfg D i count nbEvents data st).2 := by
  rw [drainLoop, if_neg hc]
  rcases hds : drainSlot cfg D i count nbEvents data st with ⟨f, st1⟩
  rw [hds] at h
  simp only at h
  subst h
  rfl

theorem mem_filter_isRead {l : List Action} {s : Nat} {p c nb : Int}
    {w : List sensors_event_t} (h : Action.readEvents s p c nb w ∈ l) :
    Action.readEvents s p c nb w ∈ l.filter Action.isRead :=
  List.mem_filter.mpr ⟨h, rfl⟩

theorem noFail_readAction {σ : Type} (D : Drivers σ) (i : Nat) (count data : Int)
    (st : Router σ) (h : 0 ≤ (D.readEvents i count st.dev).nb) :
    NoFail [readAction D i count data st] := by
  intro a ha
  rw [List.mem_singleton] at ha
  subst ha
  simp [readAction, Action.readFailed, h]

/-- What one pass of the drain loop contributes to the trace and to `nbEvents`. -/
theorem drainSlot_summary {σ : Type} (cfg : Config) (D : Drivers σ) (i : Nat)
    (count nbEvents data : Int) (st : Router σ) :
    ∃ N, (drainSlot cfg D i count nbEvents data st).2.trace = st.trace ++ N
      ∧ (drainSlot cfg D i count nbEvents data st).2.mSensors = st.mSensors
      ∧ (∀ s p c nb w, Action.readEvents s p c nb w ∈ N → s = i)
      ∧ ((drainSlot cfg D i count nbEvents data st).1 ≠ Flow.exit Result.fault →
          cfg.sensor_hub ≠ i → N.filter Action.isScan = [])
      ∧ (∀ c, (drainSlot cfg D i count nbEvents data st).1 = Flow.next c →
          NoFail N ∧ c.2.1 = returnOfReads N nbEvents)
      ∧ (∀ v, (drainSlot cfg D i count nbEvents data st).1 = Flow.exit (Result.ret v) →
          v < 0 ∧ v = returnOfReads N nbEvents
            ∧ ∃ s p c w, N.filter Action.isRead = [Action.readEvents s p c v w])
      ∧ ((drainSlot cfg D i count nbEvents data st).1 = Flow.exit Result.fault →
          NoFail N ∧ (st.mSensors i = false
            ∨ (cfg.ENABLE_MAGNETOMETER = true ∧ st.mSensors cfg.akm = false)))
      ∧ (drainSlot cfg D i count nbEvents data st).1 ≠ Flow.exit Result.blocked := by
  obtain ⟨N, h1, h2, h3⟩ := drainSlot_spec cfg D i count nbEvents data st
  refine ⟨N, h1, h2, ?_⟩
  have hslot : ∀ s p c nb w, (N.filter Action.isRead = []
        ∨ N.filter Action.isRead = [readAction D i count data st]) →
      Action.readEvents s p c nb w ∈ N → s = i := by
    intro s p c nb w hN hmem
    have hm := mem_filter_isRead hmem
    rcases hN with hN | hN
    · rw [hN] at hm; simp at hm
    · rw [hN, List.mem_singleton] at hm
      simp only [readAction, Action.readEvents.injEq] at hm
      exact hm.1
  rcases h3 with ⟨hf, hr, hsc⟩ | ⟨hf, hj, hr⟩ | ⟨hf, hneg, hr, hsc⟩ | ⟨hf, hnn, hr, hsc⟩
  · have hnf : NoFail N := noFail_of_filter (by rw [hr]; exact noFail_nil)
    refine ⟨fun s p c nb w => hslot s p c nb w (Or.inl hr), fun _ _ => hsc, ?_, ?_, ?_, ?_⟩
    · intro c hc
      rw [hf] at hc
      injection hc with hc
      subst hc
      refine ⟨hnf, ?_⟩
      rw [← returnOfReads_filter, hr]
      rfl
    · intro v hv; rw [hf] at hv; cases hv
    · intro hv; rw [hf] at hv; cases hv
    · rw [hf]; intro hv; cases hv
  · have hnf : NoFail N := by
      apply noFail_of_filter
      rcases hr with hr | ⟨hr, hnn⟩
      · rw [hr]; exact noFail_nil
      · rw [hr]; exact noFail_readAction D i count data st hnn
    refine ⟨fun s p c nb w => hslot s p c nb w (hr.imp id And.left),
      fun hne => absurd hf hne, ?_, ?_, fun _ => ⟨hnf, hj⟩, ?_⟩
    · intro c hc; rw [hf] at hc; cases hc
    · intro v hv; rw [hf] at hv; cases hv
    · rw [hf]; intro hv; cases hv
  · refine ⟨fun s p c nb w => hslot s p c nb w (Or.inr hr), fun _ _ => hsc, ?_, ?_, ?_, ?_⟩
    · intro c hc; rw [hf] at hc; cases hc
    · intro v hv
      rw [hf] at hv
      injection hv with hv
      injection hv with hv
      subst hv
      refine ⟨hneg, ?_, ⟨i, data, count, _, hr⟩⟩
      rw [← returnOfReads_filter, hr]
      simp [readAction, returnOfReads, hneg]
    · intro hv; rw [hf] at hv; cases hv
    · rw [hf]; intro hv; cases hv
  · have hnf : NoFail N :=
      noFail_of_filter (by rw [hr]; exact noFail_readAction D i count data st hnn)
    refine ⟨fun s p c nb w => hslot s p c nb w (Or.inr hr), ?_, ?_, ?_, ?_, ?_⟩
    · intro _ hne
      rw [hsc, if_neg]
      intro hc
      exact hne hc.2.2
    · intro c hc
      rw [hf] at hc
      injection hc with hc
      subst hc
      refine ⟨hnf, ?_⟩
      rw [← returnOfReads_filter, hr]
      simp [readAction, returnOfReads, not_lt.mpr hnn]
    · intro v hv; rw [hf] at hv; cases hv
    · intro hv; rw [hf] at hv; cases hv
    · rw [hf]; intro hv; cases hv

/-- What the drain loop contributes to the trace, and how its outcome follows from the
reads it made. -/
theorem drainLoop_spec {σ : Type} (cfg : Config) (D : Drivers σ) (k : Nat) :
    ∀ (i : Nat) (count nbEvents data : Int) (st : Router σ),
      ∃ N, (drainLoop cfg D k i count nbEvents data st).2.trace = st.trace ++ N
        ∧ (drainLoop cfg D k i count nbEvents data st).2.mSensors = st.mSensors
        ∧ (∀ s p c nb w, Action.readEvents s p c nb w ∈ N → i ≤ s)
        ∧ ((drainLoop cfg D k i count nbEvents data st).1 ≠ Flow.exit Result.fault →
            cfg.sensor_hub < i → N.filter Action.isScan = [])
        ∧ (∀ v, (drainLoop cfg D k i count nbEvents data st).1 = Flow.next v →
            NoFail N ∧ v = returnOfReads N nbEvents)
        ∧ (∀ v, (drainLoop cfg D k i count nbEvents data st).1 = Flow.exit (Result.ret v) →
            v < 0 ∧ v = returnOfReads N nbEvents
              ∧ ∃ pre s p c w, N.filter Action.isRead = pre ++ [Action.readEvents s p c v w]
                  ∧ NoFail pre)
        ∧ ((drainLoop cfg D k i count nbEvents data st).1 = Flow.exit Result.fault →
            NoFail N ∧ ((∃ j, i ≤ j ∧ j < i + k ∧ st.mSensors j = false)
              ∨ (cfg.ENABLE_MAGNETOMETER = true ∧ st.mSensors cfg.akm = false)))
        ∧ (drainLoop cfg D k i count nbEvents data st).1 ≠ Flow.exit Result.blocked := by
  induction k with
  | zero =>
    intro i count nbEvents data st
    refine ⟨[], by simp [drainLoop], by simp [drainLoop], by simp, by simp, ?_, ?_, ?_, ?_⟩
      <;> simp [drainLoop, noFail_nil, returnOfReads]
  | succ k ih =>
    intro i count nbEvents data st
    by_cases hc : count = 0
    · subst hc
      rw [drainLoop_succ_stop]
      refine ⟨[], by simp, rfl, by simp, by simp, ?_, ?_, ?_, ?_⟩
        <;> simp [noFail_nil, returnOfReads]
    · obtain ⟨Ns, s1, s2, s3, s4, s5, s6, s7, s8⟩ :=
        drainSlot_summary cfg D i count nbEvents data st
      cases hf : (drainSlot cfg D i count nbEvents data st).1 with
      | exit r =>
        rw [drainLoop_succ_exit cfg D k i count nbEvents data st hc r hf]
        refine ⟨Ns, s1, s2, ?_, ?_, ?_, ?_, ?_, ?_⟩
        · intro s p c nb w hm
          exact le_of_eq (s3 s p c nb w hm).symm
        · intro hne hlt
          exact s4 (by rw [hf]; simpa using hne) (Nat.ne_of_lt hlt)
        · intro v hv; cases hv
        · intro v hv
          injection hv with hv
          subst hv
          obtain ⟨a1, a2, s0, p0, c0, w0, a3⟩ := s6 v hf
          exact ⟨a1, a2, [], s0, p0, c0, w0, by simpa using a3, noFail_nil⟩
        · intro hv
          injection hv with hv
          subst hv
          obtain ⟨b1, b2⟩ := s7 hf
          refine ⟨b1, b2.imp (fun h => ⟨i, le_refl i, by omega, h⟩) id⟩
        · intro hv
          injection hv with hv
          subst hv
          exact s8 hf
      | next c =>
        rw [drainLoop_succ_next cfg D k i count nbEvents data st hc c hf]
        obtain ⟨N, l1, l2, l3, l4, l5, l6, l7, l8⟩ :=
          ih (i + 1) c.1 c.2.1 c.2.2 (drainSlot cfg D i count nbEvents data st).2
        obtain ⟨hnf, hacc⟩ := s5 c hf
        have hreads : Ns.filter Action.isRead ++ N.filter Action.isRead
            = (Ns ++ N).filter Action.isRead := by simp
        refine ⟨Ns ++ N, ?_, ?_, ?_, ?_, ?_, ?_, ?_, l8⟩
        · rw [l1, s1, List.append_assoc]
        · rw [l2, s2]
        · intro s p c0 nb w hm
          rcases List.mem_append.mp hm with hm | hm
          · exact le_of_eq (s3 s p c0 nb w hm).symm
          · exact Nat.le_of_succ_le (l3 s p c0 nb w hm)
        · intro hne hlt
          rw [List.filter_append, s4 (by rw [hf]; simp) (Nat.ne_of_lt hlt),
            l4 hne (Nat.lt_succ_of_lt hlt)]
          rfl
        · intro v hv
          obtain ⟨b1, b2⟩ := l5 v hv
          refine ⟨noFail_append hnf b1, ?_⟩
          rw [returnOfReads_append hnf, ← hacc]
          exact b2
        · intro v hv
          obtain ⟨b1, b2, pre, s0, p0, c0, w0, b3, b4⟩ := l6 v hv
          refine ⟨b1, ?_, Ns.filter Action.isRead ++ pre, s0, p0, c0, w0, ?_, ?_⟩
          · rw [returnOfReads_append hnf, ← hacc]
            exact b2
          · rw [← hreads, b3, List.append_assoc]
          · exact noFail_append (fun a ha => hnf a (List.mem_of_mem_filter ha)) b4
        · intro hv
          obtain ⟨b1, b2⟩ := l7 hv
          refine ⟨noFail_append hnf b1, ?_⟩
          rw [s2] at b2
          rcases b2 with ⟨j, j1, j2, j3⟩ | b2
          · exact Or.inl ⟨j, by omega, by omega, j3⟩
          · exact Or.inr b2

theorem wrap32_of_range {x : Int} (h0 : 0 ≤ x) (h1 : x < 2147483648) : wrap32 x = x := by
  unfold wrap32
  omega

theorem eventsWritten_readAction {σ : Type} (D : Drivers σ) (i : Nat) (count data : Int)
    (st : Router σ) :
    eventsWritten [readAction D i count data st]
      = (D.readEvents i count st.dev).written.length := by
  simp [eventsWritten, readAction, Action.written]

/-- Under the device contract one pass of the drain loop stores no more events than
`count` allows, and `count` and `nbEvents` move by exactly the number stored. -/
theorem drainSlot_contract {σ : Type} (cfg : Config) (D : Drivers σ) (hD : ReadContract D)
    (i : Nat) (count nbEvents data : Int) (st : Router σ)
    (h0 : 0 ≤ count) (h1 : 0 ≤ nbEvents) (h2 : count + nbEvents < 2147483648) :
    ∃ N, (drainSlot cfg D i count nbEvents data st).2.trace = st.trace ++ N
      ∧ (eventsWritten N : Int) ≤ count
      ∧ (∀ c, (drainSlot cfg D i count nbEvents data st).1 = Flow.next c →
          c.1 = count - eventsWritten N ∧ c.2.1 = nbEvents + eventsWritten N) := by
  obtain ⟨N, t1, _, t3⟩ := drainSlot_spec cfg D i count nbEvents data st
  obtain ⟨hc1, hc2⟩ := hD i count st.dev h0
  refine ⟨N, t1, ?_⟩
  rw [← eventsWritten_filter]
  rcases t3 with ⟨hf, hr, _⟩ | ⟨hf, _, hr⟩ | ⟨hf, hneg, hr, _⟩ | ⟨hf, hnn, hr, _⟩
  · rw [hr]
    refine ⟨by simpa [eventsWritten] using h0, ?_⟩
    intro c hc
    rw [hf] at hc
    injection hc with hc
    subst hc
    simp [eventsWritten]
  · refine ⟨?_, ?_⟩
    · rcases hr with hr | ⟨hr, hnn⟩
      · rw [hr]; simpa [eventsWritten] using h0
      · rw [hr, eventsWritten_readAction, hc2]
        omega
    · intro c hc; rw [hf] at hc; cases hc
  · refine ⟨?_, ?_⟩
    · rw [hr, eventsWritten_readAction, hc2]
      omega
    · intro c hc; rw [hf] at hc; cases hc
  · have hle : (D.readEvents i count st.dev).nb ≤ count := by omega
    refine ⟨?_, ?_⟩
    · rw [hr, eventsWritten_readAction, hc2]
      omega
    · intro c hc
      rw [hf] at hc
      injection hc with hc
      subst hc
      rw [hr, eventsWritten_readAction, hc2]
      simp only []
      rw [wrap32_of_range (by omega) (by omega), wrap32_of_range (by omega) (by omega)]
      omega

/-- Under the device contract the drain loop stores no more events than `count` allows and
ends with `nbEvents` raised by the number stored. -/
theorem drainLoop_contract {σ : Type} (cfg : Config) (D : Drivers σ) (hD : ReadContract D)
    (k : Nat) :
    ∀ (i : Nat) (count nbEvents data : Int) (st : Router σ),
      0 ≤ count → 0 ≤ nbEvents → count + nbEvents < 2147483648 →
      ∃ N, (drainLoop cfg D k i count nbEvents data st).2.trace = st.trace ++ N
        ∧ (eventsWritten N : Int) ≤ count
        ∧ (∀ v, (drainLoop cfg D k i count nbEvents data st).1 = Flow.next v →
            v = nbEvents + eventsWritten N) := by
  induction k with
  | zero =>
    intro i count nbEvents data st h0 _ _
    refine ⟨[], by simp [drainLoop], by simpa [eventsWritten] using h0, ?_⟩
    intro v hv
    simp [drainLoop] at hv
    simp [eventsWritten, hv]
  | succ k ih =>
    intro i count nbEvents data st h0 h1 h2
    by_cases hc : count = 0
    · subst hc
      rw [drainLoop_succ_stop]
      refine ⟨[], by simp, by simp [eventsWritten], ?_⟩
      intro v hv
      injection hv with hv
      simp [eventsWritten, hv]
    · obtain ⟨Ns, s1, s2, s3⟩ := drainSlot_contract cfg D hD i count nbEvents data st h0 h1 h2
      cases hf : (drainSlot cfg D i count nbEvents data st).1 with
      | exit r =>
        rw [drainLoop_succ_exit cfg D k i count nbEvents data st hc r hf]
        exact ⟨Ns, s1, s2, fun v hv => by cases hv⟩
      | next c =>
        rw [drainLoop_succ_next cfg D k i count nbEvents data st hc c hf]
        obtain ⟨c1, c2⟩ := s3 c hf
        obtain ⟨N, l1, l2, l3⟩ := ih (i + 1) c.1 c.2.1 c.2.2
          (drainSlot cfg D i count nbEvents data st).2 (by omega) (by omega) (by omega)
        refine ⟨Ns ++ N, ?_, ?_, ?_⟩
        · rw [l1, s1, List.append_assoc]
        · rw [eventsWritten_append]
          push_cast
          omega
        · intro v hv
          rw [l3 v hv, eventsWritten_append]
          push_cast
          omega

theorem wakeDrain_spec {σ : Type} (cfg : Config) (st : Router σ) :
    ∃ W, (wakeDrain cfg st).trace = st.trace ++ W
      ∧ W.filter Action.isRead = [] ∧ W.filter Action.isScan = [] := by
  unfold wakeDrain
  by_cases h : st.revents cfg.wake &&& POLLIN ≠ 0
  · rw [if_pos h]
    cases hp : st.pipe with
    | nil => exact ⟨[Action.pipeRead none], rfl, rfl, rfl⟩
    | cons b rest => exact ⟨[Action.pipeRead (some b)], rfl, rfl, rfl⟩
  · rw [if_neg h]
    exact ⟨[], by simp, rfl, rfl⟩

/-- The wake block of `pollEvents`, present in builds with the magnetometer. -/
theorem finish_spec {σ : Type} (cfg : Config) (st : Router σ) :
    ∃ W, (if cfg.ENABLE_MAGNETOMETER = true then wakeDrain cfg st else st).trace
          = st.trace ++ W
      ∧ W.filter Action.isRead = [] ∧ W.filter Action.isScan = [] := by
  by_cases h : cfg.ENABLE_MAGNETOMETER = true
  · rw [if_pos h]
    exact wakeDrain_spec cfg st
  · rw [if_neg h]
    exact ⟨[], by simp, rfl, rfl⟩

theorem drainAll_exit {σ : Type} (cfg : Config) (D : Drivers σ) (data count : Int)
    (st : Router σ) (r : Result)
    (h : (drainLoop cfg D cfg.numSensorDrivers 0 count 0 data st).1 = Flow.exit r) :
    drainAll cfg D data count st
      = (r, (drainLoop cfg D cfg.numSensorDrivers 0 count 0 data st).2) := by
  unfold drainAll
  rcases hdl : drainLoop cfg D cfg.numSensorDrivers 0 count 0 data st with ⟨f, st1⟩
  rw [hdl] at h
  simp only at h
  subst h
  rfl

theorem drainAll_next {σ : Type} (cfg : Config) (D : Drivers σ) (data count : Int)
    (st : Router σ) (v : Int)
    (h : (drainLoop cfg D cfg.numSensorDrivers 0 count 0 data st).1 = Flow.next v) :
    drainAll cfg D data count st
      = (Result.ret v,
          if cfg.ENABLE_MAGNETOMETER = true then
            wakeDrain cfg (drainLoop cfg D cfg.numSensorDrivers 0 count 0 data st).2
          else (drainLoop cfg D cfg.numSensorDrivers 0 count 0 data st).2) := by
  unfold drainAll
  rcases hdl : drainLoop cfg D cfg.numSensorDrivers 0 count 0 data st with ⟨f, st1⟩
  rw [hdl] at h
  simp only at h
  subst h
  rfl

theorem pollEvents_of_wait {σ : Type} (cfg : Config) (D : Drivers σ) (data count : Int)
    (st : Router σ) (ok : PollResult) :
    ∀ polls, waitResult polls = some ok →
      pollEvents cfg D data count polls st = drainAll cfg D data count (applyPoll cfg ok st) := by
  intro polls
  induction polls with
  | nil => intro h; simp [waitResult] at h
  | cons p rest ih =>
    intro h
    by_cases h1 : p.ret ≥ 0
    · simp only [waitResult, h1, if_true, Option.some.injEq] at h
      subst h
      simp [pollEvents, h1]
    · by_cases h2 : p.err = EINTR
      · simp only [waitResult, h1, if_false, h2, if_true] at h
        simp only [pollEvents, h1, if_false, h2, if_true]
        exact ih h
      · simp [waitResult, h1, h2] at h

theorem pollEvents_no_wait {σ : Type} (cfg : Config) (D : Drivers σ) (data count : Int)
    (st : Router σ) :
    ∀ polls, waitResult polls = none → (pollEvents cfg D data count polls st).2 = st := by
  intro polls
  induction polls with
  | nil => intro _; rfl
  | cons p rest ih =>
    intro h
    by_cases h1 : p.ret ≥ 0
    · simp [waitResult, h1] at h
    · by_cases h2 : p.err = EINTR
      · simp only [waitResult, h1, if_false, h2, if_true] at h
        simp only [pollEvents, h1, if_false, h2, if_true]
        exact ih h
      · simp [pollEvents, h1, h2]

/-- What the part of `pollEvents` after the wait contributes to the trace, and how the
value it returns follows from the reads. -/
theorem drainAll_spec {σ : Type} (cfg : Config) (D : Drivers σ) (data count : Int)
    (st : Router σ) :
    ∃ N, (drainAll cfg D data count st).2.trace = st.trace ++ N
      ∧ (AllPresent cfg st →
          (drainAll cfg D data count st).1 = Result.ret (returnOfReads N 0))
      ∧ (NoFail N
          ∨ ∃ v pre s p c w, (drainAll cfg D data count st).1 = Result.ret v ∧ v < 0
              ∧ N.filter Action.isRead = pre ++ [Action.readEvents s p c v w] ∧ NoFail pre)
      ∧ (ReadContract D → 0 ≤ count → count < 2147483648 →
          (eventsWritten N : Int) ≤ count
            ∧ (NoFail N → ∀ v, (drainAll cfg D data count st).1 = Result.ret v →
                v = eventsWritten N)) := by
  obtain ⟨N, l1, l2, l3, l4, l5, l6, l7, l8⟩ :=
    drainLoop_spec cfg D cfg.numSensorDrivers 0 count 0 data st
  cases hf : (drainLoop cfg D cfg.numSensorDrivers 0 count 0 data st).1 with
  | exit r =>
    rw [drainAll_exit cfg D data count st r hf]
    refine ⟨N, l1, ?_, ?_, ?_⟩
    · intro hall
      cases r with
      | ret v => rw [(l6 v hf).2.1]
      | fault =>
        rcases (l7 hf).2 with ⟨j, _, j2, j3⟩ | ⟨m1, m2⟩
        · rw [hall.1 j (by omega)] at j3
          cases j3
        · rw [hall.2 m1] at m2
          cases m2
      | blocked => exact absurd hf l8
    · cases r with
      | ret v =>
        obtain ⟨a1, _, pre, s0, p0, c0, w0, a3, a4⟩ := l6 v hf
        exact Or.inr ⟨v, pre, s0, p0, c0, w0, rfl, a1, a3, a4⟩
      | fault => exact Or.inl (l7 hf).1
      | blocked => exact absurd hf l8
    · intro hD h0 h1
      obtain ⟨N2, c1, c2, _⟩ :=
        drainLoop_contract cfg D hD cfg.numSensorDrivers 0 count 0 data st h0 (le_refl 0)
          (by omega)
      have hN : N2 = N := List.append_cancel_left (c1.symm.trans l1)
      subst hN
      refine ⟨c2, ?_⟩
      intro hnf v hv
      have hv2 : r = Result.ret v := hv
      subst hv2
      obtain ⟨_, _, pre, s0, p0, c0, w0, a3, _⟩ := l6 _ hf
      have hmem : Action.readEvents s0 p0 c0 v w0 ∈ N2 :=
        List.mem_of_mem_filter (by rw [a3]; simp)
      have := hnf _ hmem
      have hneg := (l6 _ hf).1
      simp [Action.readFailed] at this
      omega
  | next v =>
    rw [drainAll_next cfg D data count st v hf]
    obtain ⟨W, w1, w2, w3⟩ :=
      finish_spec cfg (drainLoop cfg D cfg.numSensorDrivers 0 count 0 data st).2
    obtain ⟨n1, n2⟩ := l5 v hf
    have hW : NoFail W := noFail_of_filter (by rw [w2]; exact noFail_nil)
    have hWr : ∀ acc, returnOfReads W acc = acc := by
      intro acc
      rw [← returnOfReads_filter, w2]
      rfl
    have hWe : eventsWritten W = 0 := by
      rw [← eventsWritten_filter, w2]
      rfl
    refine ⟨N ++ W, ?_, ?_, Or.inl (noFail_append n1 hW), ?_⟩
    · show (if cfg.ENABLE_MAGNETOMETER = true then _ else _ : Router σ).trace = _
      rw [w1, l1, List.append_assoc]
    · intro _
      rw [returnOfReads_append n1, hWr, ← n2]
    · intro hD h0 h1
      obtain ⟨N2, c1, c2, c3⟩ :=
        drainLoop_contract cfg D hD cfg.numSensorDrivers 0 count 0 data st h0 (le_refl 0)
          (by omega)
      have hN : N2 = N := List.append_cancel_left (c1.symm.trans l1)
      subst hN
      rw [eventsWritten_append, hWe]
      refine ⟨by simpa using c2, ?_⟩
      intro _ v2 hv2
      have hv3 : Result.ret v = Result.ret v2 := hv2
      injection hv3 with hv3
      subst hv3
      rw [c3 v hf]
      simp

theorem sampleRouter_present (q : List sensors_event_t) :
    AllPresent akmConfig (sampleRouter q) := by
  constructor
  · intro i hi
    have h0 : i = 0 ∨ i = 1 := by
      simp only [akmConfig] at hi
      omega
    rcases h0 with h0 | h0 <;> subst h0 <;> rfl
  · intro _
    rfl

/-! ## Draining: theorems -/

/-- C2: when in a `pollEvents` call some `readEvents` returns a negative value `v`, the
call returns exactly `v`, and that read is the last read of the call: no later slot is
read, and no read before it failed. -/
theorem pollEvents_read_error {σ : Type} (cfg : Config) (D : Drivers σ) (data count : Int)
    (polls : List PollResult) (st : Router σ) (s : Nat) (p c v : Int)
    (w : List sensors_event_t)
    (hmem : Action.readEvents s p c v w ∈ newActions st (pollEvents cfg D data count polls st).2)
    (hv : v < 0) :
    (pollEvents cfg D data count polls st).1 = Result.ret v
      ∧ ∃ pre, (newActions st (pollEvents cfg D data count polls st).2).filter Action.isRead
            = pre ++ [Action.readEvents s p c v w]
          ∧ NoFail pre := by
  cases hw : waitResult polls with
  | none =>
    rw [pollEvents_no_wait cfg D data count st polls hw, newActions_self] at hmem
    simp at hmem
  | some ok =>
    rw [pollEvents_of_wait cfg D data count st ok polls hw] at hmem ⊢
    obtain ⟨T, t1, _, t3, _⟩ := drainAll_spec cfg D data count (applyPoll cfg ok st)
    have hT : newActions st (drainAll cfg D data count (applyPoll cfg ok st)).2 = T :=
      newActions_append st _ T t1
    rw [hT] at hmem ⊢
    have hfail : (Action.readEvents s p c v w).readFailed = true := by
      simp [Action.readFailed, hv]
    rcases t3 with hnf | ⟨v1, pre, s1, p1, c1, w1, r1, _, r3, r4⟩
    · rw [hnf _ hmem] at hfail
      cases hfail
    · have hm := mem_filter_isRead hmem
      rw [r3] at hm
      rcases List.mem_append.mp hm with hm | hm
      · rw [r4 _ hm] at hfail
        cases hfail
      · rw [List.mem_singleton] at hm
        rw [hm]
        injection hm with _ _ _ e4 _
        subst e4
        exact ⟨r1, pre, r3, r4⟩

/-- C2, witness: the hub delivers 2 events, then the read of the magnetometer fails with
`-5`. -/
theorem pollEvents_read_error_witness :
    Action.readEvents 1 2 8 (-5) []
        ∈ newActions failingRouter
            (pollEvents akmConfig simDrivers 0 10 [pollOk (fun _ => POLLIN)] failingRouter).2
      ∧ (-5 : Int) < 0
      ∧ (pollEvents akmConfig simDrivers 0 10 [pollOk (fun _ => POLLIN)] failingRouter).1
          = Result.ret (-5)
      ∧ ∃ pre, (newActions failingRouter
              (pollEvents akmConfig simDrivers 0 10 [pollOk (fun _ => POLLIN)]
                failingRouter).2).filter Action.isRead
            = pre ++ [Action.readEvents 1 2 8 (-5) []]
          ∧ NoFail pre :=
  ⟨by decide, by decide,
    pollEvents_read_error akmConfig simDrivers 0 10 [pollOk (fun _ => POLLIN)] failingRouter
      1 2 8 (-5) [] (by decide) (by decide)⟩

theorem drainLoop_zero_count {σ : Type} (cfg : Config) (D : Drivers σ) (k i : Nat)
    (nbEvents data : Int) (st : Router σ) :
    drainLoop cfg D k i 0 nbEvents data st = (Flow.next nbEvents, st) := by
  cases k with
  | zero => rfl
  | succ k => exact drainLoop_succ_stop cfg D k i nbEvents data st

/-- The drain loop over slots that are neither readable nor hold pending events: each is
asked once for pending events, nothing else happens. -/
theorem drainLoop_idle {σ : Type} (cfg : Config) (D : Drivers σ) (k : Nat) :
    ∀ (i : Nat) (count nbEvents data : Int) (st : Router σ), count ≠ 0 →
      (∀ j, i ≤ j → j < i + k →
        st.revents j &&& POLLIN = 0 ∧ st.mSensors j = true
          ∧ D.hasPendingEvents j st.dev = false) →
      drainLoop cfg D k i count nbEvents data st
        = (Flow.next nbEvents,
            { st with trace := st.trace
                ++ (List.range' i k).map (fun j => Action.hasPendingEvents j false) }) := by
  induction k with
  | zero =>
    intro i count nbEvents data st _ _
    simp [drainLoop]
  | succ k ih =>
    intro i count nbEvents data st hc h
    obtain ⟨h1, h2, h3⟩ := h i (le_refl i) (by omega)
    have hs := drainSlot_idle cfg D i count nbEvents data st (by simp [h1]) h2 h3
    rw [drainLoop_succ_next cfg D k i count nbEvents data st hc (count, nbEvents, data)
      (by rw [hs]), hs]
    have hrec := ih (i + 1) count nbEvents data
      { st with trace := st.trace ++ [Action.hasPendingEvents i false] } hc
      (fun j hj1 hj2 => h j (by omega) (by omega))
    simp only [] at hrec ⊢
    rw [hrec]
    simp [List.range'_succ]

/-- C7: in a build with the magnetometer, when the wait ends (after any number of
interruptions) with only the Wake Channel entry marked readable and no device slot
readable or holding pending events, `pollEvents` returns 0 for every capacity, calls no
`readEvents` (for a non-zero capacity each slot is only asked for pending events), reads
exactly one byte from the wake pipe, whatever its value, and leaves the Wake Channel
entry's result mask cleared. -/
theorem pollEvents_wake_only {σ : Type} (cfg : Config) (D : Drivers σ) (data count : Int)
    (polls : List PollResult) (ok : PollResult) (st : Router σ) (b : Int) (rest : List Int)
    (hm : cfg.ENABLE_MAGNETOMETER = true) (hall : AllPresent cfg st)
    (hw : waitResult polls = some ok) (hfds : cfg.wake < cfg.numFds)
    (hwake : ok.revents cfg.wake &&& POLLIN ≠ 0)
    (hidle : ∀ i, i < cfg.numSensorDrivers →
      ok.revents i &&& POLLIN = 0 ∧ D.hasPendingEvents i st.dev = false)
    (hpipe : st.pipe = b :: rest) :
    (pollEvents cfg D data count polls st).1 = Result.ret 0
      ∧ newActions st (pollEvents cfg D data count polls st).2
          = (if count = 0 then []
              else (List.range cfg.numSensorDrivers).map
                (fun j => Action.hasPendingEvents j false))
            ++ [Action.pipeRead (some b)]
      ∧ (pollEvents cfg D data count polls st).2.pipe = rest
      ∧ (pollEvents cfg D data count polls st).2.revents cfg.wake = 0 := by
  have hge : cfg.numSensorDrivers ≤ cfg.wake := by
    by_contra hlt
    exact hwake (hidle cfg.wake (by omega)).1
  have hnfds : nfds cfg = cfg.numFds := by simp [nfds, hm]
  rw [pollEvents_of_wait cfg D data count st ok polls hw]
  have hloop : drainLoop cfg D cfg.numSensorDrivers 0 count 0 data (applyPoll cfg ok st)
      = (Flow.next 0,
          { applyPoll cfg ok st with
            trace := st.trace ++
              (if count = 0 then []
                else (List.range cfg.numSensorDrivers).map
                  (fun j => Action.hasPendingEvents j false)) }) := by
    by_cases hc : count = 0
    · subst hc
      rw [drainLoop_zero_count]
      simp [applyPoll]
    · rw [drainLoop_idle cfg D cfg.numSensorDrivers 0 count 0 data _ hc]
      · simp [applyPoll, hc, List.range_eq_range']
      · intro j _ hj
        have hj2 : j < cfg.numSensorDrivers := by omega
        have hj3 : j < nfds cfg := by rw [hnfds]; omega
        refine ⟨?_, hall.1 j hj2, (hidle j hj2).2⟩
        simp only [applyPoll, hj3, if_true]
        exact (hidle j hj2).1
  have hwk : (applyPoll cfg ok st).revents cfg.wake &&& POLLIN ≠ 0 := by
    simp only [applyPoll, hnfds, hfds, if_true]
    exact hwake
  rw [drainAll_next cfg D data count _ 0 (by rw [hloop]), hloop, if_pos hm]
  simp only [wakeDrain]
  rw [if_pos hwk]
  simp only [applyPoll, hpipe]
  simp [newActions]

/-- C7, witness: one interrupted wait, then only the wake entry readable, the pipe holding
the byte 0, which is not the sentinel. -/
theorem pollEvents_wake_only_witness :
    akmConfig.ENABLE_MAGNETOMETER = true ∧ AllPresent akmConfig (signalledRouter 0)
      ∧ waitResult [pollIntr, pollOk (onlyReady 2)] = some (pollOk (onlyReady 2))
      ∧ akmConfig.wake < akmConfig.numFds
      ∧ (pollOk (onlyReady 2)).revents akmConfig.wake &&& POLLIN ≠ 0
      ∧ (∀ i, i < akmConfig.numSensorDrivers →
          (pollOk (onlyReady 2)).revents i &&& POLLIN = 0
            ∧ simDrivers.hasPendingEvents i (signalledRouter 0).dev = false)
      ∧ (signalledRouter 0).pipe = [0]
      ∧ (pollEvents akmConfig simDrivers 0 10 [pollIntr, pollOk (onlyReady 2)]
            (signalledRouter 0)).1 = Result.ret 0
      ∧ newActions (signalledRouter 0)
            (pollEvents akmConfig simDrivers 0 10 [pollIntr, pollOk (onlyReady 2)]
              (signalledRouter 0)).2
          = [Action.hasPendingEvents 0 false, Action.hasPendingEvents 1 false,
              Action.pipeRead (some 0)] :=
  ⟨rfl, sampleRouter_present [], rfl, by decide, by decide, by decide, rfl,
    (pollEvents_wake_only akmConfig simDrivers 0 10 [pollIntr, pollOk (onlyReady 2)]
      (pollOk (onlyReady 2)) (signalledRouter 0) 0 [] rfl (sampleRouter_present []) rfl
      (by decide) (by decide) (by decide) rfl).1,
    (pollEvents_wake_only akmConfig simDrivers 0 10 [pollIntr, pollOk (onlyReady 2)]
      (pollOk (onlyReady 2)) (signalledRouter 0) 0 [] rfl (sampleRouter_present []) rfl
      (by decide) (by decide) (by decide) rfl).2.1⟩

/-- C10, evaluation at the failing input: in the sample build the hub (slot 0) delivers a
light event and an accelerometer event, stored at positions 0 and 1 of the caller's
buffer; the correlation scan examines positions 0 and -1: it never looks at position 1,
and position -1 lies before the start of the buffer. -/
theorem correlation_scan_leaves_buffer :
    Action.readEvents akmConfig.sensor_hub 0 10 2 [⟨7, 1⟩, ⟨1, 2⟩]
        ∈ newActions (sampleRouter [⟨7, 1⟩, ⟨1, 2⟩])
            (pollEvents akmConfig simDrivers 0 10 [pollOk (onlyReady 0)]
              (sampleRouter [⟨7, 1⟩, ⟨1, 2⟩])).2
      ∧ examined (newActions (sampleRouter [⟨7, 1⟩, ⟨1, 2⟩])
            (pollEvents akmConfig simDrivers 0 10 [pollOk (onlyReady 0)]
              (sampleRouter [⟨7, 1⟩, ⟨1, 2⟩])).2) = [0, -1] := by
  decide

/-! ## Control routing: theorems -/

/-- C3: for an identifier that is not in the Route Table, `activate`, `setDelay` and
`flush` return `-EINVAL` and leave the router, the devices, the wake pipe and the trace
exactly as they were: no device is called and nothing is written to the Wake Channel. -/
theorem unknown_identifier_rejected {σ : Type} (cfg : Config) (D : Drivers σ)
    (st : Router σ) (handle enabled ns : Int)
    (h : ∀ e ∈ st.mIdToSensor, e.1 ≠ handle) :
    activate cfg D handle enabled st = (Result.ret (-EINVAL), st)
      ∧ setDelay cfg D handle ns st = (Result.ret (-EINVAL), st)
      ∧ flush cfg D handle st = (Result.ret (-EINVAL), st) := by
  have hc := mapCount_eq_zero h
  refine ⟨?_, ?_, ?_⟩
  · unfold activate
    by_cases hd : handleToDriver cfg handle < 0 <;> simp [hd, hc]
  · unfold setDelay
    by_cases hd : handleToDriver cfg handle < 0 <;> simp [hd, hc]
  · unfold flush
    simp [hc]

/-- C3, witness: identifier 99 is not in the Route Table of the sample router. -/
theorem unknown_identifier_rejected_witness :
    (∀ e ∈ (sampleRouter []).mIdToSensor, e.1 ≠ 99)
      ∧ activate akmConfig simDrivers 99 1 (sampleRouter [])
          = (Result.ret (-EINVAL), sampleRouter [])
      ∧ setDelay akmConfig simDrivers 99 5 (sampleRouter [])
          = (Result.ret (-EINVAL), sampleRouter [])
      ∧ flush akmConfig simDrivers 99 (sampleRouter [])
          = (Result.ret (-EINVAL), sampleRouter []) :=
  ⟨by decide, unknown_identifier_rejected akmConfig simDrivers (sampleRouter []) 99 1 5 (by decide)⟩

/-- C6: for an identifier of the Route Table with metadata `s`: when `s` is one-shot,
`flush` returns `-EINVAL` and nothing changes (no device is contacted); otherwise, the hub
handle being present, `flush` performs the single device call `flush(handle)` on the hub
slot and returns its result unchanged. -/
theorem flush_routing {σ : Type} (cfg : Config) (D : Drivers σ) (st : Router σ)
    (handle : Int) (s : sensor_t) (hs : mapAt st.mIdToSensor handle = some s) :
    (s.flags &&& REPORTING_MODE_MASK = SENSOR_FLAG_ONE_SHOT_MODE →
        flush cfg D handle st = (Result.ret (-EINVAL), st))
      ∧ (s.flags &&& REPORTING_MODE_MASK ≠ SENSOR_FLAG_ONE_SHOT_MODE →
          st.mSensors cfg.sensor_hub = true →
          flush cfg D handle st
            = (Result.ret (D.flush cfg.sensor_hub handle st.dev).1,
                { st with
                  dev := (D.flush cfg.sensor_hub handle st.dev).2,
                  trace := st.trace
                    ++ [Action.flush cfg.sensor_hub handle
                          (D.flush cfg.sensor_hub handle st.dev).1] })) := by
  have hc := mapCount_ne_zero_of_mapAt hs
  constructor
  · intro h1
    unfold flush
    simp [hc, hs, h1]
  · intro h1 h2
    unfold flush
    simp [hc, hs, h1, h2]

/-- C6, witness: `flush(ID_M)` on the sample router, a continuous sensor. -/
theorem flush_routing_witness :
    mapAt (sampleRouter []).mIdToSensor 20 = some ⟨20, 0⟩
      ∧ flush akmConfig simDrivers 20 (sampleRouter [])
          = (Result.ret 0, { sampleRouter [] with trace := [Action.flush 0 20 0] }) :=
  ⟨by decide,
    (flush_routing akmConfig simDrivers (sampleRouter []) 20 ⟨20, 0⟩ (by decide)).2
      (by decide) rfl⟩

theorem orientation_routed_to_akm (cfg : Config) (hm : cfg.ENABLE_MAGNETOMETER = true)
    (hlab : (caseLabels cfg).Nodup) : handleToDriver cfg cfg.ID_OR = (cfg.akm : Int) := by
  have hin : cfg.ID_OR ∈ akmCases cfg := by simp [akmCases, hm]
  have hnot : cfg.ID_OR ∉ hubCases cfg := by
    intro hh
    unfold caseLabels at hlab
    rw [List.append_assoc] at hlab
    have hdis := (List.nodup_append.mp hlab).2.2
    exact hdis hh (List.mem_append_left _ hin)
  unfold handleToDriver
  simp [hnot, hin]

/-- C4, the claim as stated fails: in the sample build, when the magnetometer answers
`setEnable(ID_OR, 1)` with `-5`, `activate(ID_OR, 1)` makes that one call and returns `-5`;
`setEnable` is not invoked on the hub slot. -/
theorem orientation_enable_short_circuits :
    (activate akmConfig simDrivers akmConfig.ID_OR 1 refusingRouter).1 = Result.ret (-5)
      ∧ newActions refusingRouter
            (activate akmConfig simDrivers akmConfig.ID_OR 1 refusingRouter).2
          = [Action.setEnable akmConfig.akm akmConfig.ID_OR 1 (-5)] := by
  decide

/-- C4, amended: in a build with the magnetometer, with `ID_OR` in the Route Table and both
handles present, `activate(ID_OR, enabled)` invokes `setEnable` on the magnetometer slot
exactly once; when that call returns non-zero it is the only device call and its code is
returned; when it returns 0, `setEnable` is invoked exactly once on the hub slot after it
and the hub's code is returned (followed by the wake byte when `enabled` is non-zero and
the hub returned 0). So a non-zero code of either call is the value returned. -/
theorem activate_orientation {σ : Type} (cfg : Config) (D : Drivers σ) (st : Router σ)
    (enabled : Int) (hm : cfg.ENABLE_MAGNETOMETER = true) (hlab : (caseLabels cfg).Nodup)
    (hroute : mapCount st.mIdToSensor cfg.ID_OR ≠ 0)
    (hakm : st.mSensors cfg.akm = true) (hhub : st.mSensors cfg.sensor_hub = true) :
    ((D.setEnable cfg.akm cfg.ID_OR enabled st.dev).1 ≠ 0 →
        (activate cfg D cfg.ID_OR enabled st).1
            = Result.ret (D.setEnable cfg.akm cfg.ID_OR enabled st.dev).1
          ∧ newActions st (activate cfg D cfg.ID_OR enabled st).2
            = [Action.setEnable cfg.akm cfg.ID_OR enabled
                (D.setEnable cfg.akm cfg.ID_OR enabled st.dev).1])
      ∧ ((D.setEnable cfg.akm cfg.ID_OR enabled st.dev).1 = 0 →
          (activate cfg D cfg.ID_OR enabled st).1
              = Result.ret (D.setEnable cfg.sensor_hub cfg.ID_OR enabled
                  (D.setEnable cfg.akm cfg.ID_OR enabled st.dev).2).1
            ∧ newActions st (activate cfg D cfg.ID_OR enabled st).2
              = [Action.setEnable cfg.akm cfg.ID_OR enabled 0,
                  Action.setEnable cfg.sensor_hub cfg.ID_OR enabled
                    (D.setEnable cfg.sensor_hub cfg.ID_OR enabled
                      (D.setEnable cfg.akm cfg.ID_OR enabled st.dev).2).1]
                ++ (if enabled ≠ 0
                      ∧ (D.setEnable cfg.sensor_hub cfg.ID_OR enabled
                          (D.setEnable cfg.akm cfg.ID_OR enabled st.dev).2).1 = 0
                    then [Action.pipeWrite cfg.WAKE_MESSAGE] else [])) := by
  have hdrv := orientation_routed_to_akm cfg hm hlab
  have hnn : ¬ ((cfg.akm : Int) < 0) := by omega
  constructor
  · intro h1
    unfold activate wakeAndReturn
    simp [hdrv, hnn, hroute, hakm, hm, callSetEnable, h1, newActions]
  · intro h1
    unfold activate wakeAndReturn
    by_cases h2 : enabled ≠ 0
        ∧ (D.setEnable cfg.sensor_hub cfg.ID_OR enabled
            (D.setEnable cfg.akm cfg.ID_OR enabled st.dev).2).1 = 0
    · simp [hdrv, hnn, hroute, hakm, hhub, hm, callSetEnable, h1, h2, newActions, pipeWrite]
    · simp [hdrv, hnn, hroute, hakm, hhub, hm, callSetEnable, h1, h2, newActions, pipeWrite]

/-- C4, witness: `activate(ID_OR, 1)` on the sample router, both calls succeeding. -/
theorem activate_orientation_witness :
    akmConfig.ENABLE_MAGNETOMETER = true ∧ (caseLabels akmConfig).Nodup
      ∧ mapCount (sampleRouter []).mIdToSensor akmConfig.ID_OR ≠ 0
      ∧ (sampleRouter []).mSensors akmConfig.akm = true
      ∧ (sampleRouter []).mSensors akmConfig.sensor_hub = true
      ∧ (simDrivers.setEnable akmConfig.akm akmConfig.ID_OR 1 (sampleRouter []).dev).1 = 0
      ∧ (activate akmConfig simDrivers akmConfig.ID_OR 1 (sampleRouter [])).1 = Result.ret 0
      ∧ newActions (sampleRouter [])
            (activate akmConfig simDrivers akmConfig.ID_OR 1 (sampleRouter [])).2
          = [Action.setEnable 1 22 1 0, Action.setEnable 0 22 1 0, Action.pipeWrite 87] :=
  ⟨rfl, by decide, by decide, rfl, rfl, rfl,
    ((activate_orientation akmConfig simDrivers (sampleRouter []) 1 rfl (by decide)
      (by decide) rfl rfl).2 rfl).1,
    ((activate_orientation akmConfig simDrivers (sampleRouter []) 1 rfl (by decide)
      (by decide) rfl rfl).2 rfl).2⟩

/-- C8, evaluation at the failing inputs: in the sample build, when the factory of the
magnetometer slot failed, `activate(ID_M, 1)` and `setDelay(ID_M, 5)` call through the
absent handle, and when the factory of the hub slot failed so does `flush(ID_M)`; none of
them returns an error code. -/
theorem absent_handle_dereferenced :
    (degradedRouter 1).mSensors akmConfig.akm = false
      ∧ (activate akmConfig simDrivers akmConfig.ID_M 1 (degradedRouter 1)).1 = Result.fault
      ∧ (setDelay akmConfig simDrivers akmConfig.ID_M 5 (degradedRouter 1)).1 = Result.fault
      ∧ (degradedRouter 0).mSensors akmConfig.sensor_hub = false
      ∧ (flush akmConfig simDrivers akmConfig.ID_M (degradedRouter 0)).1 = Result.fault := by
  decide

end SensorsPollContext
